import Mathlib

/-!
Verification development for the synthbase graph engine (src/synthbase.py).

The Python program is shallowly embedded: the mutable object graph of
`Module`/`Input`/`Output` objects becomes an explicit heap mapping module
ids to module states; Python object references become ids; exceptions
become `Except`; Python's `None` becomes `Val.none`; numbers are modelled
by exact rationals.  Each definition in this file mirrors one method or
attribute of the source.  Definitions come first, then the supporting
lemmas and the claim theorems.
-/

/-- Declared port value kinds used by the source (`float`, `bool`, `str`). -/
inductive PyType where
  | float
  | bool
  | str
deriving DecidableEq, Repr

/-- Python runtime values occurring in this program: `None`, numbers,
booleans, strings.  Python floats are modelled by exact rationals. -/
inductive Val where
  | none
  | num (q : ℚ)
  | bool (b : Bool)
  | str (s : String)
deriving DecidableEq, Repr

/-- The numeric content of a value; non-numbers give 0.  Used only by the
concrete test module of the self-feedback scenario. -/
def valNum : Val → ℚ
  | .num q => q
  | _ => 0

/-- `isinstance(v, t)` for the value kinds above. -/
def isinstanceOf : Val → PyType → Bool
  | .num _, .float => true
  | .bool _, .bool => true
  | .str _, .str => true
  | _, _ => false

/-- Lookup in an association list keyed by strings (a Python dict whose
insertion order is the list order). -/
def lookupStr (l : List (String × Val)) (k : String) : Option Val :=
  match l.find? (fun p => decide (p.1 = k)) with
  | some p => some p.2
  | none => Option.none

/-- `Input.__init__` state (synthbase.py lines 6-14): name, declared type,
default, and the optional source (`connection`), stored as a
(module id, output name) reference. -/
structure InputPort where
  name : String
  ty : PyType
  default : Val
  connection : Option (ℕ × String)
deriving DecidableEq, Repr

/-- `Output.__init__` state (lines 16-22): name, declared type, current
value (`None` before the first evaluation), and the back-reference set
`connections` of (module id, input name) pairs.  The Python `set` is
modelled as a duplicate-free list (`add` inserts only if absent,
`remove` erases). -/
structure OutputPort where
  name : String
  ty : PyType
  value : Val
  connections : List (ℕ × String)
deriving DecidableEq, Repr

/-- The dynamic state of one `Module` object (lines 33-74): its input and
output port objects, the `error` slot, the `current_values` attribute
(initially the class-level empty dict `\x7b\x7d`, hence `some []`; `None`
is `none`), and its computation `f`, which receives the logical time and
one value per declared input and either returns a dict of output values
or raises. -/
structure ModuleState where
  inputs : List InputPort
  outputs : List OutputPort
  error : Option String
  current_values : Option (List (String × Val))
  f : ℚ → (String → Val) → Except String (List (String × Val))

/-- The whole program state: the heap of constructed `Module` objects
(objects persist even after removal from the live set, as in Python),
the class-level attribute `Synth.modules = set()` — a single set shared
by every `Synth` instance, since `__init__` only assigns `self.rate` and
`self.modules.add(...)`/`.remove(...)` mutate the class attribute — and
the per-instance rates. -/
structure World where
  heap : ℕ → Option ModuleState
  nextId : ℕ
  synthModules : List ℕ
  synthRates : ℕ → Option ℚ
  nextSynth : ℕ

/-- The state before any object is constructed. -/
def emptyWorld : World :=
  { heap := fun _ => Option.none
    nextId := 0
    synthModules := []
    synthRates := fun _ => Option.none
    nextSynth := 0 }

def getModule (w : World) (mid : ℕ) : Option ModuleState :=
  w.heap mid

/-- Mutate the module object `mid` in place (no-op on an absent id). -/
def updateModule (w : World) (mid : ℕ) (g : ModuleState → ModuleState) : World :=
  { w with heap := fun j => if j = mid then (w.heap j).map g else w.heap j }

def findInput (m : ModuleState) (n : String) : Option InputPort :=
  m.inputs.find? (fun p => decide (p.name = n))

def findOutput (m : ModuleState) (n : String) : Option OutputPort :=
  m.outputs.find? (fun p => decide (p.name = n))

/-- `self.inputs[n].connection = c` (updates the input object named `n`). -/
def setInputConn (m : ModuleState) (n : String) (c : Option (ℕ × String)) : ModuleState :=
  { m with inputs := m.inputs.map (fun p => if p.name = n then { p with connection := c } else p) }

/-- `self.outputs[n].connections.add(r)` (Python set add: no duplicates). -/
def addBackRef (m : ModuleState) (n : String) (r : ℕ × String) : ModuleState :=
  { m with outputs := m.outputs.map (fun o =>
      if o.name = n then
        { o with connections := if r ∈ o.connections then o.connections else o.connections ++ [r] }
      else o) }

/-- `self.outputs[n].connections.remove(r)` (Python set remove). -/
def removeBackRef (m : ModuleState) (n : String) (r : ℕ × String) : ModuleState :=
  { m with outputs := m.outputs.map (fun o =>
      if o.name = n then { o with connections := o.connections.erase r } else o) }

/-- `self.outputs[n].value = v`. -/
def setOutputVal (m : ModuleState) (n : String) (v : Val) : ModuleState :=
  { m with outputs := m.outputs.map (fun o => if o.name = n then { o with value := v } else o) }

/-- The source reference of input `inm` of module `mid` (none when the
module, the input, or the connection is absent). -/
def inputConnAt (w : World) (mid : ℕ) (inm : String) : Option (ℕ × String) :=
  match getModule w mid with
  | some m =>
    match findInput m inm with
    | some p => p.connection
    | Option.none => Option.none
  | Option.none => Option.none

/-- The back-reference set of output `onm` of module `mid`. -/
def backRefsAt (w : World) (mid : ℕ) (onm : String) : List (ℕ × String) :=
  match getModule w mid with
  | some m =>
    match findOutput m onm with
    | some o => o.connections
    | Option.none => []
  | Option.none => []

/-- The current value cell of output `onm` of module `mid` (an absent
output reads as Python `None`). -/
def outputValueAt (w : World) (mid : ℕ) (onm : String) : Val :=
  match getModule w mid with
  | some m =>
    match findOutput m onm with
    | some o => o.value
    | Option.none => Val.none
  | Option.none => Val.none

/-- The `error` slot of module `mid` (flattened; absent module reads none). -/
def errorAt (w : World) (mid : ℕ) : Option String :=
  match getModule w mid with
  | some m => m.error
  | Option.none => Option.none

/-- The full output port list of module `mid`. -/
def outputsAt (w : World) (mid : ℕ) : List OutputPort :=
  match getModule w mid with
  | some m => m.outputs
  | Option.none => []

/-- The `current_values` attribute of module `mid` (outer `none` = no such
module; inner `none` = Python `None`). -/
def currentValuesAt (w : World) (mid : ℕ) : Option (Option (List (String × Val))) :=
  (getModule w mid).map (fun m => m.current_values)

/-- `self.modules` as seen from `Synth` instance `sid`: instance attribute
lookup falls through to the class attribute, because no method ever
assigns `self.modules` — so every instance observes the same set. -/
def Synth_modules (w : World) (sid : ℕ) : List ℕ :=
  w.synthModules

/-- The argument handed to `connect_from`'s `other_module` parameter:
either a reference to a `Module` object or some non-`Module` value
(carrying its printed form for the exception message). -/
inductive PyRef where
  | mod (mid : ℕ)
  | notMod (descr : String)

/-- A module class declaration: input specs (name, type, default), output
specs (name, type), and the computation `f` (the shadowed `Module.f`).
Settings are omitted here; modules whose construction succeeds declare
none for the plain base class (see the Setting-construction model
below for why a plain `Module` with settings cannot be built). -/
structure ModuleSpec where
  inputs : List (String × PyType × Val)
  outputs : List (String × PyType)
  f : ℚ → (String → Val) → Except String (List (String × Val))

/-- `Synth.create_module` (lines 80-83): construct the module object
(`gen_widgets` builds fresh `Input`/`Output` objects: value `None`,
empty back-sets, no connections) and add it to the class-level
`modules` set.  Returns the new object's id. -/
def Synth_create_module (w : World) (sid : ℕ) (spec : ModuleSpec) : ℕ × World :=
  let mid := w.nextId
  let m : ModuleState :=
    { inputs := spec.inputs.map (fun d => { name := d.1, ty := d.2.1, default := d.2.2, connection := Option.none })
      outputs := spec.outputs.map (fun d => { name := d.1, ty := d.2, value := Val.none, connections := [] })
      error := Option.none
      current_values := some []
      f := spec.f }
  (mid,
    { w with
      heap := fun j => if j = mid then some m else w.heap j
      nextId := mid + 1
      synthModules :=
        if mid ∈ w.synthModules then w.synthModules else w.synthModules ++ [mid] })

/-- `Synth.__init__` (lines 78-79): assigns only `self.rate`; the
`modules` class attribute is untouched. -/
def Synth_new (w : World) (rate : ℚ) : ℕ × World :=
  (w.nextSynth,
    { w with
      nextSynth := w.nextSynth + 1
      synthRates := fun s => if s = w.nextSynth then some rate else w.synthRates s })

/-- `Module.connect_from` (lines 47-52).  The only guard is
`isinstance(other_module, Module)`; membership of the source module in
any `Synth`'s live set is not checked.  On the instance branch it sets
the input's `connection` and adds the reciprocal back-reference —
without removing any back-reference held by the input's previous
source.  Unknown port names raise `KeyError`. -/
def connect_from (w : World) (selfM : ℕ) (inputName : String) (other : PyRef)
    (outputName : String) : Except String World :=
  match other with
  | .notMod d => .error ("not a module: " ++ d)
  | .mod mid =>
    match getModule w selfM, getModule w mid with
    | some ms, some mo =>
      if (findInput ms inputName).isSome then
        if (findOutput mo outputName).isSome then
          .ok (updateModule
                (updateModule w selfM (fun m => setInputConn m inputName (some (mid, outputName))))
                mid (fun m => addBackRef m outputName (selfM, inputName)))
        else .error "KeyError: output name"
      else .error "KeyError: input name"
    | _, _ => .error "KeyError: module"

/-- `Module.disconnect` (lines 53-56): no-op when the input has no source;
otherwise remove this input from its source output's back-set, then
clear the input's `connection`. -/
def Module_disconnect (w : World) (mid : ℕ) (inputName : String) : World :=
  match getModule w mid with
  | Option.none => w
  | some m =>
    match findInput m inputName with
    | Option.none => w
    | some p =>
      match p.connection with
      | Option.none => w
      | some r =>
        updateModule
          (updateModule w r.1 (fun mo => removeBackRef mo r.2 (mid, inputName)))
          mid (fun ms => setInputConn ms inputName Option.none)

/-- `Module.destroy` (lines 67-70): for every output of the module, take a
snapshot of its current back-reference set and disconnect every input
in it. -/
def Module_destroy (w : World) (mid : ℕ) : World :=
  match getModule w mid with
  | Option.none => w
  | some m =>
    (m.outputs.map (fun o => o.name)).foldl
      (fun w1 onm => (backRefsAt w1 mid onm).foldl (fun w2 r => Module_disconnect w2 r.1 r.2) w1)
      w

/-- `Synth.remove_module` (lines 84-87): if the module is in the (shared)
live set, remove it there and then destroy it. -/
def Synth_remove_module (w : World) (mid : ℕ) : World :=
  if mid ∈ w.synthModules then
    Module_destroy { w with synthModules := w.synthModules.erase mid } mid
  else w

/-- The dict built by `Synth.step` for one module (line 90):
`\x7b name: input.connection.value \x7d` over the inputs that have a
connection (the connected output's *current* cell value, which is `None`
before that output was ever written). -/
def gatherInputs (w : World) (m : ModuleState) : List (String × Val) :=
  m.inputs.foldr
    (fun p acc =>
      match p.connection with
      | some r => (p.name, outputValueAt w r.1 r.2) :: acc
      | Option.none => acc)
    []

/-- The `overall_inputs` binding built by `Module.invoke` (line 58): a
gathered value when present, the input's declared default otherwise.
(`f` only ever queries declared input names.) -/
def overallOf (m : ModuleState) (gathered : List (String × Val)) : String → Val :=
  fun k =>
    match lookupStr gathered k with
    | some v => v
    | Option.none =>
      match findInput m k with
      | some p => p.default
      | Option.none => Val.none

/-- `Module.invoke` (lines 57-66): clear `error`, call `f`; on success
write each returned output value into its cell; on failure record the
exception and write nothing (`outputs = \x7b\x7d`).  The method body ends
without `return`, so its Python return value is `None`. -/
def Module_invoke (m : ModuleState) (gathered : List (String × Val)) (t : ℚ) : ModuleState :=
  match m.f t (overallOf m gathered) with
  | .ok outs => { (outs.foldl (fun acc p => setOutputVal acc p.1 p.2) m) with error := Option.none }
  | .error e => { m with error := some e }

/-- One module's turn inside `Synth.step` (line 90):
`module.current_values = module.invoke(\x7b...\x7d, t)` — the invocation
mutates the module, and since `invoke` returns `None`, the
`current_values` attribute is then assigned `None`. -/
def invokeStep (t : ℚ) (w : World) (mid : ℕ) : World :=
  match getModule w mid with
  | Option.none => w
  | some m =>
    updateModule w mid (fun _ => { Module_invoke m (gatherInputs w m) t with current_values := Option.none })

/-- One evaluation pass over an explicit module order. -/
def stepOver (w : World) (order : List ℕ) (t : ℚ) : World :=
  order.foldl (invokeStep t) w

/-- `Synth.step` (lines 88-90): one pass over the live module set in its
iteration order. -/
def Synth_step (w : World) (t : ℚ) : World :=
  stepOver w w.synthModules t

/-- The logical times passed to `step` by `Synth.run` (lines 91-93):
`t_from + (t_to/n)*i` for `i = 0..n-1` — note `t_to` enters as a
duration (`t_to/n` chunks), not as an end point of `[t_from, t_to)`. -/
def runTimes (n : ℕ) (t_from t_to : ℚ) : List ℚ :=
  (List.range n).map (fun i : ℕ => t_from + (t_to / n) * (i : ℚ))

/-- `Synth.run`: `n` successive calls to `step` at those times. -/
def Synth_run (w : World) (n : ℕ) (t_from t_to : ℚ) : World :=
  (runTimes n t_from t_to).foldl Synth_step w

/-- Modelled from the spec: the step times claimed by the specification
for `run(n, t0, t1)` — the `n` points evenly subdividing `[t0, t1)`,
i.e. `t0 + i*(t1 - t0)/n`.  Kept for comparison with `runTimes`. -/
def runTimesSpec (n : ℕ) (t0 t1 : ℚ) : List ℚ :=
  (List.range n).map (fun i : ℕ => t0 + (i : ℚ) * (t1 - t0) / n)

/-- Python `int(x)` on a real number truncates toward zero. -/
def pyint (q : ℚ) : ℤ :=
  if 0 ≤ q then ⌊q⌋ else ⌈q⌉

/-- `RepeatCounter` state: the rate in hz, the cursor `t_last_repeat`, and
whether the first call has already rebound `self.repeats` to
`self.real_repeats` (the method-swap on line 105). -/
structure RepeatCounter where
  rate : ℚ
  t_last_repeat : ℚ
  swapped : Bool

/-- `RepeatCounter.__init__` (lines 100-102). -/
def RepeatCounter.init (rate : ℚ) : RepeatCounter :=
  { rate := rate, t_last_repeat := 0, swapped := false }

/-- `RepeatCounter.real_repeats` (lines 107-114): for positive rate,
return `int(delta_t * rate)` repetitions and advance the cursor by
`repetitions/rate` (not by the full elapsed time); otherwise 0. -/
def real_repeats (c : RepeatCounter) (t : ℚ) : ℤ × RepeatCounter :=
  if 0 < c.rate then
    let reps := pyint ((t - c.t_last_repeat) * c.rate)
    (reps, { c with t_last_repeat := c.t_last_repeat + (reps : ℚ) / c.rate })
  else (0, c)

/-- `RepeatCounter.repeats` (lines 103-106): the first call records `t` as
the cursor, swaps itself for `real_repeats`, and returns 0; every later
call is `real_repeats`. -/
def repeats (c : RepeatCounter) (t : ℚ) : ℤ × RepeatCounter :=
  if c.swapped then real_repeats c t
  else (0, { c with t_last_repeat := t, swapped := true })

/-- Total step count returned over a sequence of calls. -/
def repeatsRun (c : RepeatCounter) (ts : List ℚ) : ℤ × RepeatCounter :=
  ts.foldl (fun acc t => let r := repeats acc.2 t; (acc.1 + r.1, r.2)) (0, c)

/-- An argument passed positionally to a constructor call. -/
inductive CallArg where
  | mod (mid : ℕ)
  | str (s : String)
  | ty (t : PyType)
  | val (v : Val)

/-- The body of `Setting.__init__` (lines 25-31), entered only when the
argument count matches.  It assigns `module`, `name`, `default`,
`value`, then evaluates `isinstance(self.default, self.type)`;
`selfType` is the `type` attribute visible on the instance — `none` for
a plain `Setting`, whose class assigns no such attribute. -/
def Setting_init (module : ℕ) (name : String) (default : Val)
    (selfType : Option PyType) : Except String Unit :=
  match selfType with
  | Option.none => .error "AttributeError: Setting object has no attribute type"
  | some ty =>
    if isinstanceOf default ty then .ok ()
    else .error "Exception: default value is not of declared type"

/-- Calling the `Setting` class: Python checks the positional argument
count against `__init__(self, module, name, default)` (three beyond
`self`) before entering the body. -/
def Setting_ctor (args : List CallArg) : Except String Unit :=
  match args with
  | [.mod m, .str n, .val d] => Setting_init m n d Option.none
  | [_, _, _] => .error "TypeError: argument kinds"
  | _ => .error "TypeError: Setting takes 3 positional arguments besides self"

/-- `Input.__init__`'s validation (lines 12-14): a default value whose
runtime type mismatches the declared type raises. -/
def Input_check (ty : PyType) (default : Val) : Except String Unit :=
  if isinstanceOf default ty then .ok ()
  else .error "Exception: default value is not of declared type"

/-- The inputs dict comprehension of `gen_widgets` (line 44): constructs
each declared `Input`, stopping at the first failure. -/
def gen_widgets_inputs : List (String × PyType × Val) → Except String Unit
  | [] => .ok ()
  | d :: rest =>
    match Input_check d.2.1 d.2.2 with
    | .ok _ => gen_widgets_inputs rest
    | .error e => .error e

/-- The settings dict comprehension of `gen_widgets` (line 46): evaluates
`Setting(self, name, _type, default)` — four positional arguments —
for each declared setting, stopping at the first failure. -/
def gen_widgets_settings (mid : ℕ) : List (String × PyType × Val) → Except String Unit
  | [] => .ok ()
  | d :: rest =>
    match Setting_ctor [.mod mid, .str d.1, .ty d.2.1, .val d.2.2] with
    | .ok _ => gen_widgets_settings mid rest
    | .error e => .error e

/-- `Module.__init__` → `gen_widgets` (lines 40-46): build the inputs,
then the outputs (whose construction cannot fail), then the settings.
Returns the first exception raised, if any. -/
def Module_construct (mid : ℕ) (ins : List (String × PyType × Val))
    (sets : List (String × PyType × Val)) : Except String Unit :=
  match gen_widgets_inputs ins with
  | .ok _ => gen_widgets_settings mid sets
  | .error e => .error e

def ConnBackConsistent (w : World) : Prop :=
  ∀ j k r, inputConnAt w j k = some r → (j, k) ∈ backRefsAt w r.1 r.2

/-- Replacing one module's computation, leaving everything else alone. -/
def replaceF (w : World) (mid : ℕ)
    (g : ℚ → (String → Val) → Except String (List (String × Val))) : World :=
  updateModule w mid (fun m => { m with f := g })

/-- Two worlds that agree everywhere except on module `mid`, where they
agree on the inputs, outputs and `current_values` but may differ in the
`error` slot and the computation `f`. -/
def AgreeExceptErrF (w1 w2 : World) (mid : ℕ) : Prop :=
  (∀ j, j ≠ mid → getModule w1 j = getModule w2 j) ∧
  (∃ m1 m2, getModule w1 mid = some m1 ∧ getModule w2 mid = some m2 ∧
    m1.inputs = m2.inputs ∧ m1.outputs = m2.outputs ∧ m1.current_values = m2.current_values)

/-- The computation of a one-module self-feedback loop: read input `in`,
output its numeric value plus one on `out`.  Total: it never raises. -/
def selfF : ℚ → (String → Val) → Except String (List (String × Val)) :=
  fun _ ins => .ok [("out", Val.num (valNum (ins "in") + 1))]

/-- The module object of the self-feedback loop: a single Input `in`
whose source is the module's own Output `out` (module id 0). -/
def selfLoopModule (v : Val) (e : Option String) (cv : Option (List (String × Val))) :
    ModuleState :=
  { inputs := [{ name := "in", ty := PyType.float, default := Val.num 0,
                 connection := some (0, "out") }]
    outputs := [{ name := "out", ty := PyType.float, value := v, connections := [(0, "in")] }]
    error := e
    current_values := cv
    f := selfF }

/-- The world of the self-feedback loop: one live module, id 0. -/
def selfLoopWorld (v : Val) (e : Option String) (cv : Option (List (String × Val))) : World :=
  { heap := fun j => if j = 0 then some (selfLoopModule v e cv) else Option.none
    nextId := 1
    synthModules := [0]
    synthRates := fun _ => Option.none
    nextSynth := 0 }

/-- The value the loop's output holds after `n` steps from starting
value `v`. -/
def selfIter : Val → ℕ → Val
  | v, 0 => v
  | v, n + 1 => selfIter (Val.num (valNum v + 1)) n

/-- A module class with a single output and a computation returning
nothing (used to exercise pure graph structure). -/
def specOneOut (onm : String) : ModuleSpec :=
  { inputs := [], outputs := [(onm, PyType.float)], f := fun _ _ => .ok [] }

/-- A module class with a single float input (default 0). -/
def specOneIn (inm : String) : ModuleSpec :=
  { inputs := [(inm, PyType.float, Val.num 0)], outputs := [], f := fun _ _ => .ok [] }

/-- Run an operation that may raise, keeping the old state on failure
(the Python caller's view after catching the exception). -/
def exceptD (r : Except String World) (d : World) : World :=
  match r with
  | .ok w => w
  | .error _ => d

/-- C1 scenario: modules 0 (output `o1`), 1 (output `o2`), 2 (input `i`);
connect 2.i from 0.o1, then reconnect 2.i from 1.o2. -/
def exC1w2 : World :=
  (Synth_create_module
    (Synth_create_module
      (Synth_create_module emptyWorld 0 (specOneOut "o1")).2 0 (specOneOut "o2")).2
    0 (specOneIn "i")).2

def exC1w3 : World := exceptD (connect_from exC1w2 2 "i" (.mod 0) "o1") exC1w2

def exC1w4 : World := exceptD (connect_from exC1w3 2 "i" (.mod 1) "o2") exC1w3

/-- C5 scenario: module 0 with output `o`, module 1 with input `i`
connected from 0.o; then `remove_module 1`. -/
def exC5w2 : World :=
  exceptD
    (connect_from
      (Synth_create_module (Synth_create_module emptyWorld 0 (specOneOut "o")).2 0
        (specOneIn "i")).2
      1 "i" (.mod 0) "o")
    emptyWorld

def exC5w3 : World := Synth_remove_module exC5w2 1

/-- C7 scenario: module 0 (output `o`) created then removed from the live
set (the object persists); module 1 (input `i`) created afterwards. -/
def exC7w2 : World :=
  (Synth_create_module
    (Synth_remove_module (Synth_create_module emptyWorld 0 (specOneOut "o")).2 0)
    0 (specOneIn "i")).2

/-- C9 scenario: two Synth instances constructed, then a module created
through the first. -/
def exC9w2 : World := (Synth_new (Synth_new emptyWorld 10).2 10).2

def exC9w3 : World := (Synth_create_module exC9w2 0 (specOneOut "o")).2

/-- C8 scenario: a single module whose computation succeeds and produces
`out = 7`. -/
def exC8M : ModuleState :=
  { inputs := []
    outputs := [{ name := "out", ty := PyType.float, value := Val.none, connections := [] }]
    error := Option.none
    current_values := some []
    f := fun _ _ => .ok [("out", Val.num 7)] }

def exC8W : World :=
  { heap := fun j => if j = 0 then some exC8M else Option.none
    nextId := 1
    synthModules := [0]
    synthRates := fun _ => Option.none
    nextSynth := 0 }

/-- C5 witness world, module 0: output `o` feeding module 1's input. -/
def wit5A : ModuleState :=
  { inputs := []
    outputs := [{ name := "o", ty := PyType.float, value := Val.none, connections := [(1, "i")] }]
    error := Option.none
    current_values := some []
    f := fun _ _ => .ok [] }

/-- C5 witness world, module 1 (to be destroyed): input `i` sourced from
module 0's `o`, output `p` feeding module 2's input `j`. -/
def wit5M : ModuleState :=
  { inputs := [{ name := "i", ty := PyType.float, default := Val.num 0,
                 connection := some (0, "o") }]
    outputs := [{ name := "p", ty := PyType.float, value := Val.none, connections := [(2, "j")] }]
    error := Option.none
    current_values := some []
    f := fun _ _ => .ok [] }

/-- C5 witness world, module 2: input `j` sourced from module 1's `p`. -/
def wit5B : ModuleState :=
  { inputs := [{ name := "j", ty := PyType.float, default := Val.num 0,
                 connection := some (1, "p") }]
    outputs := []
    error := Option.none
    current_values := some []
    f := fun _ _ => .ok [] }

def wit5W : World :=
  { heap := fun j => if j = 0 then some wit5A else if j = 1 then some wit5M
      else if j = 2 then some wit5B else Option.none
    nextId := 3
    synthModules := [0, 1, 2]
    synthRates := fun _ => Option.none
    nextSynth := 0 }

/-- C2 scenario: module 0 always raises; module 1 computes `go = 5`. -/
def exC2F : ModuleState :=
  { inputs := []
    outputs := [{ name := "fo", ty := PyType.float, value := Val.num 3, connections := [] }]
    error := Option.none
    current_values := some []
    f := fun _ _ => .error "boom" }

def exC2G : ModuleState :=
  { inputs := []
    outputs := [{ name := "go", ty := PyType.float, value := Val.none, connections := [] }]
    error := Option.none
    current_values := some []
    f := fun _ _ => .ok [("go", Val.num 5)] }

def exC2W : World :=
  { heap := fun j => if j = 0 then some exC2F else if j = 1 then some exC2G else Option.none
    nextId := 2
    synthModules := [0, 1]
    synthRates := fun _ => Option.none
    nextSynth := 0 }

/-- C3 scenario: module 0 produces `ao = 1`; module 1's input `bi` reads
module 0's output. -/
def exC3A : ModuleState :=
  { inputs := []
    outputs := [{ name := "ao", ty := PyType.float, value := Val.none, connections := [(1, "bi")] }]
    error := Option.none
    current_values := some []
    f := fun _ _ => .ok [("ao", Val.num 1)] }

def exC3B : ModuleState :=
  { inputs := [{ name := "bi", ty := PyType.float, default := Val.num 0,
                 connection := some (0, "ao") }]
    outputs := []
    error := Option.none
    current_values := some []
    f := fun _ _ => .ok [] }

def exC3W : World :=
  { heap := fun j => if j = 0 then some exC3A else if j = 1 then some exC3B else Option.none
    nextId := 2
    synthModules := [0, 1]
    synthRates := fun _ => Option.none
    nextSynth := 0 }

/-! ### Lemmas and claim theorems -/

theorem find?_map_name {α : Type} (nm : α → String) (g : α → α)
    (hg : ∀ p, nm (g p) = nm p) (l : List α) (n : String) :
    (l.map g).find? (fun p => decide (nm p = n)) =
      (l.find? (fun p => decide (nm p = n))).map g := by
  induction l with
  | nil => rfl
  | cons a l ih =>
    simp only [List.map_cons, List.find?_cons, hg a]
    cases h : decide (nm a = n) with
    | true => rfl
    | false => exact ih

@[simp] theorem getModule_updateModule (w : World) (mid : ℕ) (g : ModuleState → ModuleState)
    (j : ℕ) :
    getModule (updateModule w mid g) j =
      if j = mid then (getModule w j).map g else getModule w j := by
  simp [getModule, updateModule]

theorem getModule_updateModule_ne {w : World} {mid j : ℕ} (g : ModuleState → ModuleState)
    (h : j ≠ mid) : getModule (updateModule w mid g) j = getModule w j := by
  simp [h]

@[simp] theorem synthModules_updateModule (w : World) (mid : ℕ)
    (g : ModuleState → ModuleState) : (updateModule w mid g).synthModules = w.synthModules :=
  rfl

@[simp] theorem findInput_setInputConn (m : ModuleState) (n : String)
    (c : Option (ℕ × String)) (k : String) :
    findInput (setInputConn m n c) k =
      (findInput m k).map (fun p => if p.name = n then { p with connection := c } else p) := by
  simp only [findInput, setInputConn]
  exact find?_map_name InputPort.name _ (by intro p; by_cases h : p.name = n <;> simp [h]) _ _

@[simp] theorem findOutput_setInputConn (m : ModuleState) (n : String)
    (c : Option (ℕ × String)) (k : String) :
    findOutput (setInputConn m n c) k = findOutput m k := rfl

@[simp] theorem findInput_addBackRef (m : ModuleState) (n : String) (r : ℕ × String)
    (k : String) : findInput (addBackRef m n r) k = findInput m k := rfl

@[simp] theorem findInput_removeBackRef (m : ModuleState) (n : String) (r : ℕ × String)
    (k : String) : findInput (removeBackRef m n r) k = findInput m k := rfl

@[simp] theorem findInput_setOutputVal (m : ModuleState) (n : String) (v : Val)
    (k : String) : findInput (setOutputVal m n v) k = findInput m k := rfl

@[simp] theorem findOutput_addBackRef (m : ModuleState) (n : String) (r : ℕ × String)
    (k : String) :
    findOutput (addBackRef m n r) k =
      (findOutput m k).map (fun o =>
        if o.name = n then
          { o with connections := if r ∈ o.connections then o.connections else o.connections ++ [r] }
        else o) := by
  simp only [findOutput, addBackRef]
  exact find?_map_name OutputPort.name _ (by intro o; by_cases h : o.name = n <;> simp [h]) _ _

@[simp] theorem findOutput_removeBackRef (m : ModuleState) (n : String) (r : ℕ × String)
    (k : String) :
    findOutput (removeBackRef m n r) k =
      (findOutput m k).map (fun o =>
        if o.name = n then { o with connections := o.connections.erase r } else o) := by
  simp only [findOutput, removeBackRef]
  exact find?_map_name OutputPort.name _ (by intro o; by_cases h : o.name = n <;> simp [h]) _ _

@[simp] theorem findOutput_setOutputVal (m : ModuleState) (n : String) (v : Val)
    (k : String) :
    findOutput (setOutputVal m n v) k =
      (findOutput m k).map (fun o => if o.name = n then { o with value := v } else o) := by
  simp only [findOutput, setOutputVal]
  exact find?_map_name OutputPort.name _ (by intro o; by_cases h : o.name = n <;> simp [h]) _ _

theorem findInput_name {m : ModuleState} {k : String} {p : InputPort}
    (h : findInput m k = some p) : p.name = k := by
  have := List.find?_some h
  simpa using this

theorem findOutput_name {m : ModuleState} {k : String} {o : OutputPort}
    (h : findOutput m k = some o) : o.name = k := by
  have := List.find?_some h
  simpa using this

theorem findInput_mem {m : ModuleState} {k : String} {p : InputPort}
    (h : findInput m k = some p) : p ∈ m.inputs :=
  List.mem_of_find?_eq_some h

theorem inputConnAt_some {w : World} {a : ℕ} {i : String} {r : ℕ × String}
    (h : inputConnAt w a i = some r) :
    ∃ m p, getModule w a = some m ∧ findInput m i = some p ∧ p.connection = some r := by
  unfold inputConnAt at h
  cases hm : getModule w a with
  | none => simp only [hm] at h; exact Option.noConfusion h
  | some m =>
    simp only [hm] at h ⊢
    cases hf : findInput m i with
    | none => simp only [hf] at h; exact Option.noConfusion h
    | some p => exact ⟨m, p, rfl, hf, by simp only [hf] at h; exact h⟩

theorem disconnect_of_not_connected {w : World} {a : ℕ} {i : String}
    (h : inputConnAt w a i = Option.none) : Module_disconnect w a i = w := by
  unfold Module_disconnect
  unfold inputConnAt at h
  cases hm : getModule w a with
  | none => simp only [hm]
  | some m =>
    simp only [hm] at h ⊢
    cases hf : findInput m i with
    | none => simp only [hf]
    | some p =>
      simp only [hf] at h ⊢
      simp only [h]

theorem disconnect_of_connected {w : World} {a : ℕ} {i : String} {m : ModuleState}
    {p : InputPort} {r : ℕ × String}
    (hm : getModule w a = some m) (hf : findInput m i = some p)
    (hc : p.connection = some r) :
    Module_disconnect w a i =
      updateModule (updateModule w r.1 (fun mo => removeBackRef mo r.2 (a, i))) a
        (fun ms => setInputConn ms i Option.none) := by
  unfold Module_disconnect
  simp only [hm, hf, hc]

@[simp] theorem synthModules_disconnect (w : World) (a : ℕ) (i : String) :
    (Module_disconnect w a i).synthModules = w.synthModules := by
  cases hC : inputConnAt w a i with
  | none => rw [disconnect_of_not_connected hC]
  | some r =>
    obtain ⟨m, p, hm, hf, hc⟩ := inputConnAt_some hC
    rw [disconnect_of_connected hm hf hc]
    rfl

theorem inputConnAt_update_outputsOnly {g : ModuleState → ModuleState}
    (hg : ∀ m k, findInput (g m) k = findInput m k) (w : World) (b : ℕ) (j : ℕ) (k : String) :
    inputConnAt (updateModule w b g) j k = inputConnAt w j k := by
  unfold inputConnAt
  simp only [getModule_updateModule]
  by_cases hjb : j = b
  · simp only [if_pos hjb]
    cases getModule w j with
    | none => rfl
    | some mj => simp [hg]
  · simp only [if_neg hjb]

theorem backRefsAt_update_inputsOnly {g : ModuleState → ModuleState}
    (hg : ∀ m k, findOutput (g m) k = findOutput m k) (w : World) (b : ℕ) (j : ℕ) (k : String) :
    backRefsAt (updateModule w b g) j k = backRefsAt w j k := by
  unfold backRefsAt
  simp only [getModule_updateModule]
  by_cases hjb : j = b
  · simp only [if_pos hjb]
    cases getModule w j with
    | none => rfl
    | some mj => simp [hg]
  · simp only [if_neg hjb]

theorem inputConnAt_setInputConn_world_self {w : World} {a : ℕ} {i : String}
    {c : Option (ℕ × String)} {m : ModuleState} {p : InputPort}
    (hm : getModule w a = some m) (hf : findInput m i = some p) :
    inputConnAt (updateModule w a (fun ms => setInputConn ms i c)) a i = c := by
  unfold inputConnAt
  simp only [getModule_updateModule, if_pos rfl, hm, Option.map_some']
  simp [hf, findInput_name hf]

theorem inputConnAt_setInputConn_world_ne {w : World} {a : ℕ} {i : String}
    {c : Option (ℕ × String)} {j : ℕ} {k : String} (hne : ¬(j = a ∧ k = i)) :
    inputConnAt (updateModule w a (fun ms => setInputConn ms i c)) j k = inputConnAt w j k := by
  unfold inputConnAt
  simp only [getModule_updateModule]
  by_cases hja : j = a
  · have hki : ¬(k = i) := fun hk => hne ⟨hja, hk⟩
    simp only [if_pos hja]
    cases hgj : getModule w j with
    | none => rfl
    | some mj =>
      simp only [Option.map_some']
      cases hfk : findInput mj k with
      | none => simp [hfk]
      | some q => simp [hfk, findInput_name hfk, hki]
  · simp only [if_neg hja]

theorem backRefsAt_removeBackRef_world (w : World) (b : ℕ) (o : String) (r : ℕ × String)
    (j : ℕ) (k : String) :
    backRefsAt (updateModule w b (fun m => removeBackRef m o r)) j k =
      if j = b ∧ k = o then (backRefsAt w j k).erase r else backRefsAt w j k := by
  unfold backRefsAt
  simp only [getModule_updateModule]
  by_cases hjb : j = b
  · simp only [if_pos hjb]
    cases hgj : getModule w j with
    | none => simp [List.erase]
    | some mj =>
      simp only [Option.map_some']
      cases hfk : findOutput mj k with
      | none =>
        simp only [findOutput_removeBackRef, hfk, Option.map_none']
        split <;> simp [List.erase]
      | some q =>
        have hq : q.name = k := findOutput_name hfk
        by_cases hko : k = o
        · subst hko
          simp [findOutput_removeBackRef, hfk, hq, hjb]
        · simp [findOutput_removeBackRef, hfk, hq, hko, hjb]
  · simp only [if_neg hjb]
    have : ¬(j = b ∧ k = o) := fun hcon => hjb hcon.1
    simp [this]

theorem backRefsAt_addBackRef_world_self {w : World} {b : ℕ} {o : String} (r : ℕ × String)
    {m : ModuleState} {q : OutputPort}
    (hm : getModule w b = some m) (hf : findOutput m o = some q) :
    backRefsAt (updateModule w b (fun ms => addBackRef ms o r)) b o =
      if r ∈ backRefsAt w b o then backRefsAt w b o else backRefsAt w b o ++ [r] := by
  unfold backRefsAt
  simp only [getModule_updateModule, if_pos rfl, hm, Option.map_some']
  simp [findOutput_addBackRef, hf, findOutput_name hf]

theorem backRefsAt_addBackRef_world_ne {w : World} {b : ℕ} {o : String} {r : ℕ × String}
    {j : ℕ} {k : String} (hne : ¬(j = b ∧ k = o)) :
    backRefsAt (updateModule w b (fun ms => addBackRef ms o r)) j k = backRefsAt w j k := by
  unfold backRefsAt
  simp only [getModule_updateModule]
  by_cases hjb : j = b
  · have hko : ¬(k = o) := fun hk => hne ⟨hjb, hk⟩
    simp only [if_pos hjb]
    cases hgj : getModule w j with
    | none => rfl
    | some mj =>
      simp only [Option.map_some']
      cases hfk : findOutput mj k with
      | none => simp [findOutput_addBackRef, hfk]
      | some q => simp [findOutput_addBackRef, hfk, findOutput_name hfk, hko]
  · simp only [if_neg hjb]

theorem inputConnAt_disconnect_self (w : World) (a : ℕ) (i : String) :
    inputConnAt (Module_disconnect w a i) a i = Option.none := by
  cases hC : inputConnAt w a i with
  | none => rw [disconnect_of_not_connected hC, hC]
  | some r =>
    obtain ⟨m, p, hm, hf, hc⟩ := inputConnAt_some hC
    rw [disconnect_of_connected hm hf hc]
    by_cases har : a = r.1
    · have hm2 : getModule (updateModule w r.1 (fun mo => removeBackRef mo r.2 (a, i))) a =
          some (removeBackRef m r.2 (a, i)) := by
        simp only [← har]
        simp [hm]
      have hf2 : findInput (removeBackRef m r.2 (a, i)) i = some p := by simp [hf]
      exact inputConnAt_setInputConn_world_self hm2 hf2
    · have hm2 : getModule (updateModule w r.1 (fun mo => removeBackRef mo r.2 (a, i))) a =
          some m := by simp [har, hm]
      exact inputConnAt_setInputConn_world_self hm2 hf

theorem inputConnAt_disconnect_of_ne (w : World) (a : ℕ) (i : String) (j : ℕ) (k : String)
    (hne : ¬(j = a ∧ k = i)) :
    inputConnAt (Module_disconnect w a i) j k = inputConnAt w j k := by
  cases hC : inputConnAt w a i with
  | none => rw [disconnect_of_not_connected hC]
  | some r =>
    obtain ⟨m, p, hm, hf, hc⟩ := inputConnAt_some hC
    rw [disconnect_of_connected hm hf hc]
    rw [inputConnAt_setInputConn_world_ne hne]
    exact inputConnAt_update_outputsOnly (fun m k => findInput_removeBackRef m r.2 (a, i) k) w r.1 j k

theorem inputConnAt_disconnect_mono {w : World} {a : ℕ} {i : String} {j : ℕ} {k : String}
    {c : ℕ × String} (h : inputConnAt (Module_disconnect w a i) j k = some c) :
    inputConnAt w j k = some c := by
  by_cases hjk : j = a ∧ k = i
  · rw [hjk.1, hjk.2, inputConnAt_disconnect_self] at h
    exact Option.noConfusion h
  · rw [inputConnAt_disconnect_of_ne w a i j k hjk] at h
    exact h

theorem backRefsAt_disconnect_connected {w : World} {a : ℕ} {i : String} {r : ℕ × String}
    (hC : inputConnAt w a i = some r) (j : ℕ) (k : String) :
    backRefsAt (Module_disconnect w a i) j k =
      if j = r.1 ∧ k = r.2 then (backRefsAt w j k).erase (a, i) else backRefsAt w j k := by
  obtain ⟨m, p, hm, hf, hc⟩ := inputConnAt_some hC
  rw [disconnect_of_connected hm hf hc]
  rw [backRefsAt_update_inputsOnly (fun m k => findOutput_setInputConn m i Option.none k)]
  exact backRefsAt_removeBackRef_world w r.1 r.2 (a, i) j k

theorem connBack_disconnect {w : World} (hP : ConnBackConsistent w) (a : ℕ) (i : String) :
    ConnBackConsistent (Module_disconnect w a i) := by
  intro j k r h
  by_cases hjk : j = a ∧ k = i
  · rw [hjk.1, hjk.2, inputConnAt_disconnect_self] at h
    exact Option.noConfusion h
  · rw [inputConnAt_disconnect_of_ne w a i j k hjk] at h
    have hmem := hP j k r h
    cases hC : inputConnAt w a i with
    | none => rw [disconnect_of_not_connected hC]; exact hmem
    | some r2 =>
      rw [backRefsAt_disconnect_connected hC]
      by_cases htgt : r.1 = r2.1 ∧ r.2 = r2.2
      · rw [if_pos htgt]
        have hne : (j, k) ≠ (a, i) := by
          intro hEq
          exact hjk ⟨congrArg Prod.fst hEq, congrArg Prod.snd hEq⟩
        exact (List.mem_erase_of_ne hne).mpr hmem
      · rw [if_neg htgt]; exact hmem

theorem inputConnAt_foldDisc_mono {L : List (ℕ × String)} : ∀ {w : World} {j : ℕ}
    {k : String} {c : ℕ × String},
    inputConnAt (L.foldl (fun w2 r => Module_disconnect w2 r.1 r.2) w) j k = some c →
    inputConnAt w j k = some c := by
  induction L with
  | nil => intro w j k c h; exact h
  | cons a L ih =>
    intro w j k c h
    exact inputConnAt_disconnect_mono (ih h)

theorem connBack_foldDisc {L : List (ℕ × String)} : ∀ {w : World}, ConnBackConsistent w →
    ConnBackConsistent (L.foldl (fun w2 r => Module_disconnect w2 r.1 r.2) w) := by
  induction L with
  | nil => intro w h; exact h
  | cons a L ih => intro w h; exact ih (connBack_disconnect h a.1 a.2)

theorem inputConnAt_foldDisc_cleared {L : List (ℕ × String)} : ∀ {w : World} {a : ℕ}
    {i : String}, (a, i) ∈ L →
    inputConnAt (L.foldl (fun w2 r => Module_disconnect w2 r.1 r.2) w) a i = Option.none := by
  induction L with
  | nil => intro w a i h; exact absurd h (List.not_mem_nil _)
  | cons b L ih =>
    intro w a i h
    rcases List.mem_cons.mp h with h1 | h2
    · cases h1
      have hgoal : inputConnAt
          (L.foldl (fun w2 r => Module_disconnect w2 r.1 r.2) (Module_disconnect w a i)) a i =
          Option.none := by
        cases hc : inputConnAt
            (L.foldl (fun w2 r => Module_disconnect w2 r.1 r.2) (Module_disconnect w a i)) a i with
        | none => rfl
        | some c =>
          have hmono := inputConnAt_foldDisc_mono hc
          rw [inputConnAt_disconnect_self] at hmono
          exact Option.noConfusion hmono
      rw [List.foldl_cons]
      exact hgoal
    · exact ih h2

@[simp] theorem synthModules_foldDisc (L : List (ℕ × String)) : ∀ (w : World),
    (L.foldl (fun w2 r => Module_disconnect w2 r.1 r.2) w).synthModules = w.synthModules := by
  induction L with
  | nil => intro w; rfl
  | cons a L ih => intro w; rw [List.foldl_cons, ih, synthModules_disconnect]

theorem inputConnAt_destroyOuter_mono {mid : ℕ} {ns : List String} : ∀ {w : World} {j : ℕ}
    {k : String} {c : ℕ × String},
    inputConnAt (ns.foldl (fun w1 onm =>
      (backRefsAt w1 mid onm).foldl (fun w2 r => Module_disconnect w2 r.1 r.2) w1) w) j k
        = some c →
    inputConnAt w j k = some c := by
  induction ns with
  | nil => intro w j k c h; exact h
  | cons n ns ih =>
    intro w j k c h
    exact inputConnAt_foldDisc_mono (ih h)

theorem connBack_destroyOuter {mid : ℕ} {ns : List String} : ∀ {w : World},
    ConnBackConsistent w →
    ConnBackConsistent (ns.foldl (fun w1 onm =>
      (backRefsAt w1 mid onm).foldl (fun w2 r => Module_disconnect w2 r.1 r.2) w1) w) := by
  induction ns with
  | nil => intro w h; exact h
  | cons n ns ih => intro w h; exact ih (connBack_foldDisc h)

@[simp] theorem synthModules_destroyOuter (mid : ℕ) (ns : List String) : ∀ (w : World),
    (ns.foldl (fun w1 onm =>
      (backRefsAt w1 mid onm).foldl (fun w2 r => Module_disconnect w2 r.1 r.2) w1)
        w).synthModules = w.synthModules := by
  induction ns with
  | nil => intro w; rfl
  | cons n ns ih => intro w; rw [List.foldl_cons, ih, synthModules_foldDisc]

@[simp] theorem synthModules_destroy (w : World) (mid : ℕ) :
    (Module_destroy w mid).synthModules = w.synthModules := by
  unfold Module_destroy
  cases hgm : getModule w mid with
  | none => rfl
  | some m => simp only [synthModules_destroyOuter]

theorem backRefsAt_of_no_module {w : World} {mid : ℕ} (hgm : getModule w mid = Option.none)
    (onm : String) : backRefsAt w mid onm = [] := by
  unfold backRefsAt
  simp only [hgm]

/-- After `Module.destroy(mid)`, no input anywhere points at any output of
`mid` — provided every input pointer was registered in its target's
back-set, which is what the snapshot-and-disconnect loop walks. -/
theorem noDangling_destroy {w : World} {mid : ℕ} (hP : ConnBackConsistent w) (j : ℕ)
    (k onm : String) : inputConnAt (Module_destroy w mid) j k ≠ some (mid, onm) := by
  intro h
  cases hgm : getModule w mid with
  | none =>
    have hred : Module_destroy w mid = w := by
      unfold Module_destroy
      rw [hgm]
    rw [hred] at h
    have hmem := hP j k (mid, onm) h
    rw [backRefsAt_of_no_module hgm] at hmem
    exact absurd hmem (List.not_mem_nil _)
  | some m =>
    have hred : Module_destroy w mid = (m.outputs.map (fun o => o.name)).foldl
        (fun w1 onm2 => (backRefsAt w1 mid onm2).foldl
          (fun w2 r => Module_disconnect w2 r.1 r.2) w1) w := by
      unfold Module_destroy
      rw [hgm]
    rw [hred] at h
    have h0 : inputConnAt w j k = some (mid, onm) := inputConnAt_destroyOuter_mono h
    have hmem : (j, k) ∈ backRefsAt w mid onm := hP j k (mid, onm) h0
    have honm : onm ∈ m.outputs.map (fun o => o.name) := by
      cases hfo : findOutput m onm with
      | none =>
        have hempty : backRefsAt w mid onm = [] := by
          unfold backRefsAt
          rw [hgm]
          dsimp only
          rw [hfo]
        rw [hempty] at hmem
        exact absurd hmem (List.not_mem_nil _)
      | some o =>
        exact List.mem_map.mpr ⟨o, List.mem_of_find?_eq_some hfo, findOutput_name hfo⟩
    obtain ⟨n1, n2, hsplit⟩ := List.append_of_mem honm
    rw [hsplit, List.foldl_append, List.foldl_cons] at h
    have h1 : inputConnAt
        ((backRefsAt (n1.foldl (fun w1 onm2 =>
            (backRefsAt w1 mid onm2).foldl (fun w2 r => Module_disconnect w2 r.1 r.2) w1) w)
          mid onm).foldl (fun w2 r => Module_disconnect w2 r.1 r.2)
          (n1.foldl (fun w1 onm2 =>
            (backRefsAt w1 mid onm2).foldl (fun w2 r => Module_disconnect w2 r.1 r.2) w1) w))
        j k = some (mid, onm) := inputConnAt_destroyOuter_mono h
    have hPA : ConnBackConsistent (n1.foldl (fun w1 onm2 =>
        (backRefsAt w1 mid onm2).foldl (fun w2 r => Module_disconnect w2 r.1 r.2) w1) w) :=
      connBack_destroyOuter hP
    have h0A : inputConnAt (n1.foldl (fun w1 onm2 =>
        (backRefsAt w1 mid onm2).foldl (fun w2 r => Module_disconnect w2 r.1 r.2) w1) w) j k
        = some (mid, onm) := inputConnAt_foldDisc_mono h1
    have hmemA := hPA j k (mid, onm) h0A
    have hcleared : inputConnAt
        ((backRefsAt (n1.foldl (fun w1 onm2 =>
            (backRefsAt w1 mid onm2).foldl (fun w2 r => Module_disconnect w2 r.1 r.2) w1) w)
          mid onm).foldl (fun w2 r => Module_disconnect w2 r.1 r.2)
          (n1.foldl (fun w1 onm2 =>
            (backRefsAt w1 mid onm2).foldl (fun w2 r => Module_disconnect w2 r.1 r.2) w1) w))
        j k = Option.none := inputConnAt_foldDisc_cleared hmemA
    rw [hcleared] at h1
    exact Option.noConfusion h1

theorem getModule_invokeStep_ne {w : World} {t : ℚ} {mid j : ℕ} (h : j ≠ mid) :
    getModule (invokeStep t w mid) j = getModule w j := by
  unfold invokeStep
  cases hgm : getModule w mid with
  | none => rfl
  | some m => exact getModule_updateModule_ne _ h

theorem getModule_stepOver_not_mem {order : List ℕ} : ∀ {w : World} {t : ℚ} {j : ℕ},
    j ∉ order → getModule (stepOver w order t) j = getModule w j := by
  induction order with
  | nil => intro w t j _; rfl
  | cons a order ih =>
    intro w t j h
    show getModule (stepOver (invokeStep t w a) order t) j = getModule w j
    rw [ih (fun hc => h (List.mem_cons_of_mem _ hc))]
    exact getModule_invokeStep_ne (fun hc => h (hc ▸ List.mem_cons_self _ _))

theorem remove_module_of_mem {w : World} {mid : ℕ} (h : mid ∈ w.synthModules) :
    Synth_remove_module w mid =
      Module_destroy { w with synthModules := w.synthModules.erase mid } mid := by
  unfold Synth_remove_module
  rw [if_pos h]

theorem synthModules_remove_module {w : World} {mid : ℕ} (h : mid ∈ w.synthModules) :
    (Synth_remove_module w mid).synthModules = w.synthModules.erase mid := by
  rw [remove_module_of_mem h, synthModules_destroy]

theorem invokeStep_of_some {w : World} {t : ℚ} {mid : ℕ} {m : ModuleState}
    (hgm : getModule w mid = some m) :
    invokeStep t w mid = updateModule w mid
      (fun _ => { Module_invoke m (gatherInputs w m) t with current_values := Option.none }) := by
  unfold invokeStep
  rw [hgm]

theorem Module_invoke_of_error {m : ModuleState} {gathered : List (String × Val)} {t : ℚ}
    {e : String} (h : m.f t (overallOf m gathered) = .error e) :
    Module_invoke m gathered t = { m with error := some e } := by
  unfold Module_invoke
  rw [h]

theorem Module_invoke_of_ok {m : ModuleState} {gathered : List (String × Val)} {t : ℚ}
    {outs : List (String × Val)} (h : m.f t (overallOf m gathered) = .ok outs) :
    Module_invoke m gathered t =
      { (outs.foldl (fun acc p => setOutputVal acc p.1 p.2) m) with error := Option.none } := by
  unfold Module_invoke
  rw [h]

@[simp] theorem inputs_setOutputVal (m : ModuleState) (n : String) (v : Val) :
    (setOutputVal m n v).inputs = m.inputs := rfl

@[simp] theorem f_setOutputVal (m : ModuleState) (n : String) (v : Val) :
    (setOutputVal m n v).f = m.f := rfl

theorem inputs_setOutputVal_foldl (outs : List (String × Val)) : ∀ (m : ModuleState),
    (outs.foldl (fun acc p => setOutputVal acc p.1 p.2) m).inputs = m.inputs := by
  induction outs with
  | nil => intro m; rfl
  | cons a outs ih => intro m; rw [List.foldl_cons, ih]; rfl

theorem f_setOutputVal_foldl (outs : List (String × Val)) : ∀ (m : ModuleState),
    (outs.foldl (fun acc p => setOutputVal acc p.1 p.2) m).f = m.f := by
  induction outs with
  | nil => intro m; rfl
  | cons a outs ih => intro m; rw [List.foldl_cons, ih]; rfl

theorem outputValueAt_congr {w1 w2 : World} {mid : ℕ}
    (h : AgreeExceptErrF w1 w2 mid) (j : ℕ) (onm : String) :
    outputValueAt w1 j onm = outputValueAt w2 j onm := by
  unfold outputValueAt
  by_cases hj : j = mid
  · obtain ⟨m1, m2, hg1, hg2, _, houts, _⟩ := h.2
    rw [hj, hg1, hg2]
    unfold findOutput
    dsimp only
    rw [houts]
  · rw [h.1 j hj]

theorem gatherInputs_congr {w1 w2 : World} {mid : ℕ}
    (h : AgreeExceptErrF w1 w2 mid) (m : ModuleState) :
    gatherInputs w1 m = gatherInputs w2 m := by
  unfold gatherInputs
  induction m.inputs with
  | nil => rfl
  | cons p l ih =>
    rw [List.foldr_cons, List.foldr_cons, ih]
    cases p.connection with
    | none => rfl
    | some r =>
      dsimp only
      rw [outputValueAt_congr h]

theorem agree_invokeStep {w1 w2 : World} {mid k : ℕ} {t : ℚ}
    (h : AgreeExceptErrF w1 w2 mid) (hk : k ≠ mid) :
    AgreeExceptErrF (invokeStep t w1 k) (invokeStep t w2 k) mid := by
  have hgk : getModule w1 k = getModule w2 k := h.1 k hk
  constructor
  · intro j hj
    by_cases hjk : j = k
    · rw [hjk]
      cases hgm : getModule w1 k with
      | none =>
        have hgm2 : getModule w2 k = Option.none := hgk.symm.trans hgm
        unfold invokeStep
        rw [hgm, hgm2]
        exact hgk
      | some m =>
        have hgm2 : getModule w2 k = some m := hgk.symm.trans hgm
        rw [invokeStep_of_some hgm, invokeStep_of_some hgm2]
        simp only [getModule_updateModule, if_pos rfl, hgm, hgm2, Option.map_some']
        rw [gatherInputs_congr h]
    · rw [getModule_invokeStep_ne hjk, getModule_invokeStep_ne hjk]
      exact h.1 j hj
  · obtain ⟨m1, m2, hg1, hg2, hi, ho, hc⟩ := h.2
    refine ⟨m1, m2, ?_, ?_, hi, ho, hc⟩
    · rw [getModule_invokeStep_ne (fun hc2 => hk hc2.symm)]
      exact hg1
    · rw [getModule_invokeStep_ne (fun hc2 => hk hc2.symm)]
      exact hg2

theorem agree_stepOver {L : List ℕ} : ∀ {w1 w2 : World} {mid : ℕ} {t : ℚ},
    AgreeExceptErrF w1 w2 mid → mid ∉ L →
    AgreeExceptErrF (stepOver w1 L t) (stepOver w2 L t) mid := by
  induction L with
  | nil => intro w1 w2 mid t h _; exact h
  | cons a L ih =>
    intro w1 w2 mid t h hmem
    have ha : a ≠ mid := fun hc => hmem (hc ▸ List.mem_cons_self _ _)
    exact ih (agree_invokeStep h ha) (fun hc => hmem (List.mem_cons_of_mem _ hc))

theorem pyint_of_nonneg {q : ℚ} (h : 0 ≤ q) : pyint q = ⌊q⌋ := by
  unfold pyint
  rw [if_pos h]

theorem repeats_step_closed {R t0 : ℚ} (hR : 0 < R) (S : ℤ) (t tcur : ℚ)
    (hle : tcur ≤ t) (hS : S = ⌊(tcur - t0) * R⌋) :
    (S + (repeats { rate := R, t_last_repeat := t0 + (S : ℚ) / R, swapped := true } t).1,
     (repeats { rate := R, t_last_repeat := t0 + (S : ℚ) / R, swapped := true } t).2) =
      (⌊(t - t0) * R⌋,
        { rate := R, t_last_repeat := t0 + ((⌊(t - t0) * R⌋ : ℤ) : ℚ) / R, swapped := true }) := by
  have hRne : R ≠ 0 := ne_of_gt hR
  have harith : (t - (t0 + (S : ℚ) / R)) * R = (t - t0) * R - (S : ℤ) := by
    field_simp
    ring
  have hfloor_le : ((S : ℤ) : ℚ) ≤ (tcur - t0) * R := by
    rw [hS]
    exact Int.floor_le _
  have hmono : (tcur - t0) * R ≤ (t - t0) * R := by
    apply mul_le_mul_of_nonneg_right _ (le_of_lt hR)
    linarith
  have hpos : 0 ≤ (t - (t0 + (S : ℚ) / R)) * R := by
    rw [harith]
    linarith
  have hrx : pyint ((t - (t0 + (S : ℚ) / R)) * R) = ⌊(t - t0) * R⌋ - S := by
    rw [pyint_of_nonneg hpos, harith, Int.floor_sub_int]
  have hcall : repeats { rate := R, t_last_repeat := t0 + (S : ℚ) / R, swapped := true } t =
      real_repeats { rate := R, t_last_repeat := t0 + (S : ℚ) / R, swapped := true } t := rfl
  have hreal : real_repeats { rate := R, t_last_repeat := t0 + (S : ℚ) / R, swapped := true } t =
      (⌊(t - t0) * R⌋ - S,
        { rate := R,
          t_last_repeat := (t0 + (S : ℚ) / R) + ((⌊(t - t0) * R⌋ - S : ℤ) : ℚ) / R,
          swapped := true }) := by
    unfold real_repeats
    rw [if_pos hR]
    dsimp only
    rw [hrx]
  rw [hcall, hreal]
  congr 1
  · omega
  · congr 1
    push_cast
    field_simp

theorem repeatsRun_invariant {R t0 : ℚ} (hR : 0 < R) :
    ∀ (rest : List ℚ) (tcur : ℚ) (S : ℤ), List.Chain (· ≤ ·) tcur rest →
    S = ⌊(tcur - t0) * R⌋ →
    (rest.foldl (fun acc t => let r := repeats acc.2 t; (acc.1 + r.1, r.2))
      (S, { rate := R, t_last_repeat := t0 + (S : ℚ) / R, swapped := true })).1
      = ⌊(rest.getLastD tcur - t0) * R⌋ := by
  intro rest
  induction rest with
  | nil =>
    intro tcur S _ hS
    simpa using hS
  | cons t rest ih =>
    intro tcur S hchain hS
    obtain ⟨hle, hchain2⟩ := List.chain_cons.mp hchain
    rw [List.foldl_cons]
    dsimp only
    rw [repeats_step_closed hR S t tcur hle hS, List.getLastD_cons]
    exact ih t ⌊(t - t0) * R⌋ hchain2 rfl

@[ext] theorem World.ext {w1 w2 : World} (h1 : w1.heap = w2.heap) (h2 : w1.nextId = w2.nextId)
    (h3 : w1.synthModules = w2.synthModules) (h4 : w1.synthRates = w2.synthRates)
    (h5 : w1.nextSynth = w2.nextSynth) : w1 = w2 := by
  cases w1
  cases w2
  cases h1
  cases h2
  cases h3
  cases h4
  cases h5
  rfl

theorem outputValueAt_eq_of_getModule {w1 w2 : World} {src : ℕ}
    (h : getModule w1 src = getModule w2 src) (onm : String) :
    outputValueAt w1 src onm = outputValueAt w2 src onm := by
  unfold outputValueAt
  rw [h]

theorem stepOver_take_succ (w : World) (order : List ℕ) (t : ℚ) (i : ℕ)
    (hi : i < order.length) :
    stepOver w (order.take (i + 1)) t =
      invokeStep t (stepOver w (order.take i) t) (order.get ⟨i, hi⟩) := by
  rw [List.take_succ, List.getElem?_eq_getElem hi]
  unfold stepOver
  rw [List.foldl_append]
  rfl

theorem take_decomp_of_lt (order : List ℕ) {j i : ℕ} (hji : j < i) :
    order.take i = order.take (j + 1) ++ (order.take i).drop (j + 1) := by
  have h1 : (order.take i).take (j + 1) = order.take (j + 1) := by
    rw [List.take_take, min_eq_left (by omega)]
  rw [← h1, List.take_append_drop]

theorem mem_take_succ_self {order : List ℕ} {j : ℕ} (hj : j < order.length) :
    order.get ⟨j, hj⟩ ∈ order.take (j + 1) := by
  rw [List.take_succ, List.getElem?_eq_getElem hj]
  exact List.mem_append.mpr (Or.inr (by simp [List.get_eq_getElem]))

theorem not_mem_seg {order : List ℕ} {j i : ℕ} (hnd : order.Nodup) (hji : j < i)
    (hj : j < order.length) :
    order.get ⟨j, hj⟩ ∉ (order.take i).drop (j + 1) := by
  intro hmem
  have hndi : (order.take i).Nodup := hnd.sublist (List.take_sublist i order)
  have hsplit := take_decomp_of_lt order hji
  rw [hsplit] at hndi
  have hdisj := List.disjoint_of_nodup_append hndi
  exact hdisj (mem_take_succ_self hj) hmem

/-- The fresh value: what a module ordered later reads from an earlier
module's output equals that output's cell right after the earlier
module's invocation this step. -/
theorem outputValue_fresh {w : World} {order : List ℕ} {t : ℚ} {j i : ℕ}
    (hnd : order.Nodup) (hji : j < i) (hj : j < order.length) (onm : String) :
    outputValueAt (stepOver w (order.take i) t) (order.get ⟨j, hj⟩) onm =
      outputValueAt (stepOver w (order.take (j + 1)) t) (order.get ⟨j, hj⟩) onm := by
  have hsplit := take_decomp_of_lt order hji
  rw [hsplit]
  unfold stepOver
  rw [List.foldl_append]
  exact outputValueAt_eq_of_getModule
    (getModule_stepOver_not_mem (not_mem_seg hnd hji hj)) onm

/-- The stale value: a source not evaluated before position `i` still
holds its pre-step value when position `i` gathers its inputs. -/
theorem outputValue_stale {w : World} {order : List ℕ} {t : ℚ} {i src : ℕ}
    (hsrc : src ∉ order.take i) (onm : String) :
    outputValueAt (stepOver w (order.take i) t) src onm = outputValueAt w src onm :=
  outputValueAt_eq_of_getModule (getModule_stepOver_not_mem hsrc) onm

theorem gather_lookup_aux (w : World) (inm : String) (p : InputPort) (r : ℕ × String)
    (hc : p.connection = some r) : ∀ (l : List InputPort),
    l.find? (fun q => decide (q.name = inm)) = some p →
    lookupStr (l.foldr (fun q acc =>
      match q.connection with
      | some r2 => (q.name, outputValueAt w r2.1 r2.2) :: acc
      | Option.none => acc) []) inm = some (outputValueAt w r.1 r.2) := by
  intro l
  induction l with
  | nil => intro h; exact Option.noConfusion h
  | cons q l ih =>
    intro h
    rw [List.find?_cons] at h
    cases hq : decide (q.name = inm) with
    | true =>
      rw [hq] at h
      have hpq : q = p := by
        have := Option.some.inj h
        exact this
      have hqname : q.name = inm := of_decide_eq_true hq
      rw [List.foldr_cons]
      rw [hpq, hc]
      dsimp only
      unfold lookupStr
      rw [List.find?_cons]
      simp [hpq ▸ hqname]
    | false =>
      rw [hq] at h
      have hqname : ¬(q.name = inm) := of_decide_eq_false hq
      rw [List.foldr_cons]
      cases hqc : q.connection with
      | none => exact ih h
      | some r2 =>
        dsimp only
        unfold lookupStr
        rw [List.find?_cons]
        have : decide ((q.name, outputValueAt w r2.1 r2.2).1 = inm) = false :=
          decide_eq_false hqname
        rw [this]
        exact ih h

/-- The value `step` passes for a connected input is the connected
output's cell value in the state current when that module's turn
comes. -/
theorem gather_reads_cell {w : World} {m : ModuleState} {inm : String} {p : InputPort}
    {r : ℕ × String} (hf : findInput m inm = some p) (hc : p.connection = some r) :
    lookupStr (gatherInputs w m) inm = some (outputValueAt w r.1 r.2) :=
  gather_lookup_aux w inm p r hc m.inputs hf

theorem selfLoop_step (v : Val) (e : Option String) (cv : Option (List (String × Val)))
    (t : ℚ) :
    Synth_step (selfLoopWorld v e cv) t =
      selfLoopWorld (Val.num (valNum v + 1)) Option.none Option.none := by
  have hgm : getModule (selfLoopWorld v e cv) 0 = some (selfLoopModule v e cv) := rfl
  show invokeStep t (selfLoopWorld v e cv) 0 = _
  rw [invokeStep_of_some hgm]
  have hX : ({ Module_invoke (selfLoopModule v e cv)
      (gatherInputs (selfLoopWorld v e cv) (selfLoopModule v e cv)) t with
      current_values := (Option.none : Option (List (String × Val))) } : ModuleState) =
      selfLoopModule (Val.num (valNum v + 1)) Option.none Option.none := rfl
  apply World.ext
  · funext j
    by_cases hj : j = 0
    · subst hj
      exact congrArg some hX
    · simp [updateModule, selfLoopWorld, hj]
  · rfl
  · rfl
  · rfl
  · rfl

theorem selfIter_num (n : ℕ) : ∀ (k : ℚ), selfIter (Val.num k) n = Val.num (k + n) := by
  induction n with
  | zero => intro k; simp [selfIter]
  | succ n ih =>
    intro k
    show selfIter (Val.num (valNum (Val.num k) + 1)) n = _
    rw [ih (valNum (Val.num k) + 1)]
    show Val.num (k + 1 + (n : ℚ)) = Val.num (k + ((n : ℕ) + 1 : ℕ))
    exact congrArg Val.num (by push_cast; ring)

theorem selfLoop_foldSteps (ts : List ℚ) : ∀ (v : Val) (e : Option String)
    (cv : Option (List (String × Val))), ts ≠ [] →
    ts.foldl Synth_step (selfLoopWorld v e cv) =
      selfLoopWorld (selfIter v ts.length) Option.none Option.none := by
  induction ts with
  | nil => intro v e cv h; exact absurd rfl h
  | cons t ts ih =>
    intro v e cv _
    rw [List.foldl_cons, selfLoop_step]
    by_cases hts : ts = []
    · subst hts
      rfl
    · exact ih _ _ _ hts

theorem gen_widgets_inputs_ok {ins : List (String × PyType × Val)}
    (h : ∀ d ∈ ins, isinstanceOf d.2.2 d.2.1 = true) : gen_widgets_inputs ins = .ok () := by
  induction ins with
  | nil => rfl
  | cons d ins ih =>
    unfold gen_widgets_inputs Input_check
    rw [if_pos (h d (List.mem_cons_self _ _))]
    exact ih (fun d2 hd2 => h d2 (List.mem_cons_of_mem _ hd2))

theorem wit5W_consistent : ConnBackConsistent wit5W := by
  intro j k r h
  by_cases hj0 : j = 0
  · subst hj0
    have hnone : inputConnAt wit5W 0 k = Option.none := rfl
    rw [hnone] at h
    exact Option.noConfusion h
  by_cases hj1 : j = 1
  · subst hj1
    by_cases hk : ("i" : String) = k
    · subst hk
      have hval : inputConnAt wit5W 1 "i" = some (0, "o") := rfl
      rw [hval] at h
      cases Option.some.inj h
      decide
    · have hfi : findInput wit5M k = Option.none := by
        unfold findInput wit5M
        dsimp only
        rw [List.find?_cons, decide_eq_false hk]
        rfl
      have hnone : inputConnAt wit5W 1 k = Option.none := by
        unfold inputConnAt
        rw [show getModule wit5W 1 = some wit5M from rfl]
        dsimp only
        rw [hfi]
      rw [hnone] at h
      exact Option.noConfusion h
  by_cases hj2 : j = 2
  · subst hj2
    by_cases hk : ("j" : String) = k
    · subst hk
      have hval : inputConnAt wit5W 2 "j" = some (1, "p") := rfl
      rw [hval] at h
      cases Option.some.inj h
      decide
    · have hfi : findInput wit5B k = Option.none := by
        unfold findInput wit5B
        dsimp only
        rw [List.find?_cons, decide_eq_false hk]
        rfl
      have hnone : inputConnAt wit5W 2 k = Option.none := by
        unfold inputConnAt
        rw [show getModule wit5W 2 = some wit5B from rfl]
        dsimp only
        rw [hfi]
      rw [hnone] at h
      exact Option.noConfusion h
  · have hg : getModule wit5W j = Option.none := by
      unfold getModule wit5W
      dsimp only
      rw [if_neg hj0, if_neg hj1, if_neg hj2]
    have hnone : inputConnAt wit5W j k = Option.none := by
      unfold inputConnAt
      rw [hg]
    rw [hnone] at h
    exact Option.noConfusion h

/-- C1: the bidirectional-consistency claim fails on the code.  Evaluating
`connect_from` on a fresh graph — connect input `i` of module 2 to
output `o1` of module 0, then reconnect it to output `o2` of module 1 —
leaves `(2, i)` in `o1`'s back-set even though `i`'s source is now
`o2`: `connect_from` never removes the old back-reference before
installing the new source (synthbase.py lines 47-52 have no removal
step). -/
theorem C1_reconnect_leaves_stale_backref :
    inputConnAt exC1w4 2 "i" = some (1, "o2") ∧
    (2, "i") ∈ backRefsAt exC1w4 0 "o1" ∧
    (2, "i") ∈ backRefsAt exC1w4 1 "o2" :=
  ⟨by decide, by decide, by decide⟩

/-- C5 (counterexample): after `remove_module 1` on a graph where module 1's
input `i` was connected from module 0's output `o`, the surviving output
`o` still holds the back-reference `(1, i)` to the destroyed module's
input — `destroy` severs only the edges leaving the destroyed module's
outputs, contradicting the claim that no back-reference to the destroyed
module survives anywhere. -/
theorem C5_inbound_backref_survives :
    (1, "i") ∈ backRefsAt exC5w3 0 "o" ∧ 1 ∉ exC5w3.synthModules :=
  ⟨by decide, by decide⟩

/-- C5 (amended): after `remove_module mid` on a graph whose Input→Output
pointers are all registered in the pointed-to Output's back-set, no
Input anywhere points at any Output of `mid` any more, `mid` leaves the
live set, and a subsequent `step` never touches `mid` again.  (Back-
references from surviving Outputs to `mid`'s own Inputs are *not*
cleared — see the counterexample.) -/
theorem C5_remove_module_severs_outward (w : World) (mid : ℕ)
    (hP : ConnBackConsistent w) (hmem : mid ∈ w.synthModules)
    (hnd : w.synthModules.Nodup) :
    (∀ j k onm, inputConnAt (Synth_remove_module w mid) j k ≠ some (mid, onm)) ∧
    mid ∉ (Synth_remove_module w mid).synthModules ∧
    (∀ t, getModule (Synth_step (Synth_remove_module w mid) t) mid =
      getModule (Synth_remove_module w mid) mid) := by
  have hrw := remove_module_of_mem hmem
  have hnm : mid ∉ (Synth_remove_module w mid).synthModules := by
    rw [synthModules_remove_module hmem]
    intro hc
    exact (hnd.mem_erase_iff.mp hc).1 rfl
  refine ⟨?_, hnm, ?_⟩
  · intro j k onm
    rw [hrw]
    have hP2 : ConnBackConsistent { w with synthModules := w.synthModules.erase mid } :=
      fun j2 k2 r2 h2 => hP j2 k2 r2 h2
    exact noDangling_destroy hP2 j k onm
  · intro t
    exact getModule_stepOver_not_mem hnm

/-- C5 (witness): the amended theorem applied to the concrete three-module
chain 0 → 1 → 2 with module 1 removed. -/
theorem C5_remove_module_witness :
    ConnBackConsistent wit5W ∧ 1 ∈ wit5W.synthModules ∧ wit5W.synthModules.Nodup ∧
    inputConnAt (Synth_remove_module wit5W 1) 2 "j" ≠ some (1, "p") ∧
    1 ∉ (Synth_remove_module wit5W 1).synthModules ∧
    getModule (Synth_step (Synth_remove_module wit5W 1) 0) 1 =
      getModule (Synth_remove_module wit5W 1) 1 := by
  have h := C5_remove_module_severs_outward wit5W 1 wit5W_consistent (by decide) (by decide)
  exact ⟨wit5W_consistent, by decide, by decide, h.1 2 "j" "p", h.2.1, h.2.2 0⟩

/-- C6 (counterexample): `run(2, 1, 3)` passes step times `[1, 5/2]` —
`t_from + (t_to/n)*i` treats `t_to` as a duration — not the two points
`[1, 2]` evenly subdividing `[1, 3)` that the claim asserts. -/
theorem C6_run_times_counterexample :
    runTimes 2 1 3 = [1, 5/2] ∧ runTimesSpec 2 1 3 = [1, 2] ∧
    runTimes 2 1 3 ≠ runTimesSpec 2 1 3 := by
  have h1 : runTimes 2 1 3 = [1, 5/2] := by
    norm_num [runTimes, List.range_succ]
  have h2 : runTimesSpec 2 1 3 = [1, 2] := by
    norm_num [runTimesSpec, List.range_succ]
  refine ⟨h1, h2, ?_⟩
  rw [h1, h2]
  norm_num

/-- C6 (amended): `run(n, t_from, t_to)` performs exactly `n` calls to
`step`, the `i`-th at logical time `t_from + (t_to/n)*i` (the `n` points
evenly subdividing `[t_from, t_from + t_to)`); `run 0` performs zero
steps and returns the world — hence every Output value — unchanged. -/
theorem C6_run_amended (w : World) (n : ℕ) (a b : ℚ) :
    Synth_run w n a b = (runTimes n a b).foldl Synth_step w ∧
    (runTimes n a b).length = n ∧
    (∀ i, i < n → (runTimes n a b).get? i = some (a + (b / n) * i)) ∧
    Synth_run w 0 a b = w := by
  refine ⟨rfl, by unfold runTimes; rw [List.length_map, List.length_range], ?_, rfl⟩
  intro i hi
  unfold runTimes
  rw [List.get?_map, List.get?_range hi]
  rfl

/-- C6 (witness): the amended run semantics at `n = 2`, `t_from = 1`,
`t_to = 3` on a concrete world. -/
theorem C6_run_witness :
    Synth_run exC8W 2 1 3 = (runTimes 2 1 3).foldl Synth_step exC8W ∧
    (runTimes 2 1 3).length = 2 ∧
    (runTimes 2 1 3).get? 1 = some (5/2 : ℚ) ∧
    Synth_run exC8W 0 1 3 = exC8W := by
  have h := C6_run_amended exC8W 2 1 3
  refine ⟨h.1, h.2.1, ?_, h.2.2.2⟩
  rw [h.2.2.1 1 (by norm_num)]
  norm_num

/-- C7 (counterexample): module 0 is created and then removed from the
graph's live set, yet `connect_from` from its output succeeds — no
error is reported and the graph state changes (the connection is
installed) — because the code checks only `isinstance(other_module,
Module)`, not live membership. -/
theorem C7_dead_module_connect_succeeds :
    0 ∉ Synth_modules exC7w2 0 ∧
    (connect_from exC7w2 1 "i" (.mod 0) "o").toOption.isSome = true ∧
    inputConnAt (exceptD (connect_from exC7w2 1 "i" (.mod 0) "o") exC7w2) 1 "i" =
      some (0, "o") :=
  ⟨by decide, by decide, by decide⟩

/-- C7 (amended): `connect_from` raises — reporting the error to the
caller with the graph unchanged — exactly when the source argument is
not a `Module` instance; a `Module` that is *not* in the live set is
accepted, and the connection (source pointer plus back-reference) is
installed. -/
theorem C7_connect_checks_instance_only (w : World) (selfM : ℕ) (inm : String)
    (d : String) (onm : String) :
    connect_from w selfM inm (.notMod d) onm = .error ("not a module: " ++ d) ∧
    (∀ src ms mo p q w2, getModule w selfM = some ms → getModule w src = some mo →
      findInput ms inm = some p → findOutput mo onm = some q →
      connect_from w selfM inm (.mod src) onm = .ok w2 →
      inputConnAt w2 selfM inm = some (src, onm) ∧
      (selfM, inm) ∈ backRefsAt w2 src onm) := by
  refine ⟨rfl, ?_⟩
  intro src ms mo p q w2 hms hmo hfi hfo hok
  have hW : w2 = updateModule
      (updateModule w selfM (fun m => setInputConn m inm (some (src, onm))))
      src (fun m => addBackRef m onm (selfM, inm)) := by
    unfold connect_from at hok
    dsimp only at hok
    rw [hms, hmo] at hok
    dsimp only at hok
    rw [show (findInput ms inm).isSome = true by rw [hfi]; rfl] at hok
    rw [show (findOutput mo onm).isSome = true by rw [hfo]; rfl] at hok
    simp only [if_true] at hok
    exact (Except.ok.inj hok).symm
  subst hW
  constructor
  · rw [inputConnAt_update_outputsOnly (fun m k => findInput_addBackRef m onm (selfM, inm) k)]
    exact inputConnAt_setInputConn_world_self hms hfi
  · by_cases hss : src = selfM
    · have hms2 : getModule (updateModule w selfM
          (fun m => setInputConn m inm (some (src, onm)))) src =
          some (setInputConn ms inm (some (src, onm))) := by
        rw [hss]
        simp [hms]
      have hfo2 : findOutput (setInputConn ms inm (some (src, onm))) onm = some q := by
        have hmos : mo = ms := by
          rw [hss] at hmo
          exact Option.some.inj (hmo.symm.trans hms)
        rw [findOutput_setInputConn, ← hmos]
        exact hfo
      rw [backRefsAt_addBackRef_world_self (selfM, inm) hms2 hfo2]
      by_cases hmem : (selfM, inm) ∈ backRefsAt (updateModule w selfM
          (fun m => setInputConn m inm (some (src, onm)))) src onm
      · rw [if_pos hmem]
        exact hmem
      · rw [if_neg hmem]
        exact List.mem_append.mpr (Or.inr (List.mem_singleton.mpr rfl))
    · have hms2 : getModule (updateModule w selfM
          (fun m => setInputConn m inm (some (src, onm)))) src = some mo := by
        rw [getModule_updateModule_ne _ hss]
        exact hmo
      rw [backRefsAt_addBackRef_world_self (selfM, inm) hms2 hfo]
      by_cases hmem : (selfM, inm) ∈ backRefsAt (updateModule w selfM
          (fun m => setInputConn m inm (some (src, onm)))) src onm
      · rw [if_pos hmem]
        exact hmem
      · rw [if_neg hmem]
        exact List.mem_append.mpr (Or.inr (List.mem_singleton.mpr rfl))

/-- C7 (witness): the amended theorem applied to the C7 scenario — a
non-`Module` argument raises, and the removed-but-alive module 0 is
accepted as a source with the connection installed. -/
theorem C7_connect_witness :
    connect_from exC7w2 1 "i" (.notMod "3.5") "o" = .error ("not a module: " ++ "3.5") ∧
    inputConnAt (exceptD (connect_from exC7w2 1 "i" (.mod 0) "o") exC7w2) 1 "i" =
      some (0, "o") ∧
    (1, "i") ∈ backRefsAt (exceptD (connect_from exC7w2 1 "i" (.mod 0) "o") exC7w2) 0 "o" := by
  have h := C7_connect_checks_instance_only exC7w2 1 "i" "3.5" "o"
  have hok : connect_from exC7w2 1 "i" (.mod 0) "o" =
      .ok (exceptD (connect_from exC7w2 1 "i" (.mod 0) "o") exC7w2) := rfl
  have h2 := h.2 0
    { inputs := [{ name := "i", ty := PyType.float, default := Val.num 0,
                   connection := Option.none }]
      outputs := [], error := Option.none, current_values := some [],
      f := (specOneIn "i").f }
    { inputs := []
      outputs := [{ name := "o", ty := PyType.float, value := Val.none, connections := [] }]
      error := Option.none, current_values := some [], f := (specOneOut "o").f }
    { name := "i", ty := PyType.float, default := Val.num 0, connection := Option.none }
    { name := "o", ty := PyType.float, value := Val.none, connections := [] }
    (exceptD (connect_from exC7w2 1 "i" (.mod 0) "o") exC7w2)
    rfl rfl rfl rfl hok
  exact ⟨h.1, h2.1, h2.2⟩

/-- C8: the claim fails on the code.  Stepping a module whose computation
succeeds (producing `out = 7` with no prior error) leaves
`current_values = None` — `Module.invoke` ends without a `return`
statement, so line 90's `module.current_values = module.invoke(...)`
assigns `None`, not the produced output mapping. -/
theorem C8_current_values_none_after_step :
    errorAt (Synth_step exC8W 0) 0 = Option.none ∧
    outputValueAt (Synth_step exC8W 0) 0 "out" = Val.num 7 ∧
    currentValuesAt (Synth_step exC8W 0) 0 = some Option.none :=
  ⟨by decide, by decide, by decide⟩

/-- C9 (counterexample): two `Synth` engines are constructed
independently, then a module is created through the first; the second
engine's `modules` attribute — which resolves to the single class-level
set — changes from `[]` to `[0]`, contradicting per-engine ownership. -/
theorem C9_create_module_leaks_across_synths :
    Synth_modules exC9w2 1 = [] ∧ Synth_modules exC9w3 1 = [0] :=
  ⟨by decide, by decide⟩

/-- C9 (amended): all `Synth` instances share the one class-level
`modules` set: a module created through instance `s1` is observed by
every instance `s2`, removing it through any instance restores the
shared set, and `step` on any instance iterates exactly that shared
set. -/
theorem C9_modules_set_is_shared (w : World) (s1 s2 : ℕ) (spec : ModuleSpec)
    (hfresh : w.nextId ∉ Synth_modules w s1) :
    Synth_modules (Synth_create_module w s1 spec).2 s2 =
      Synth_modules (Synth_create_module w s1 spec).2 s1 ∧
    (Synth_create_module w s1 spec).1 ∈ Synth_modules (Synth_create_module w s1 spec).2 s2 ∧
    Synth_modules (Synth_remove_module (Synth_create_module w s1 spec).2
      (Synth_create_module w s1 spec).1) s2 = Synth_modules w s1 ∧
    (∀ t, Synth_step (Synth_create_module w s1 spec).2 t =
      stepOver (Synth_create_module w s1 spec).2
        (Synth_modules (Synth_create_module w s1 spec).2 s2) t) := by
  have hfresh2 : w.nextId ∉ w.synthModules := hfresh
  have hlive : (Synth_create_module w s1 spec).2.synthModules =
      w.synthModules ++ [w.nextId] := by
    unfold Synth_create_module
    dsimp only
    rw [if_neg hfresh2]
  refine ⟨rfl, ?_, ?_, fun t => rfl⟩
  · show (Synth_create_module w s1 spec).1 ∈ (Synth_create_module w s1 spec).2.synthModules
    rw [hlive]
    exact List.mem_append.mpr (Or.inr (List.mem_singleton.mpr rfl))
  · have hmem : (Synth_create_module w s1 spec).1 ∈
        (Synth_create_module w s1 spec).2.synthModules := by
      rw [hlive]
      exact List.mem_append.mpr (Or.inr (List.mem_singleton.mpr rfl))
    show (Synth_remove_module (Synth_create_module w s1 spec).2
      (Synth_create_module w s1 spec).1).synthModules = w.synthModules
    rw [synthModules_remove_module hmem, hlive]
    have hfst : (Synth_create_module w s1 spec).1 = w.nextId := rfl
    rw [hfst, List.erase_append_right _ hfresh2, List.erase_cons_head, List.append_nil]

/-- C9 (witness): the amended sharing, instantiated on the two-synth
scenario. -/
theorem C9_modules_set_witness :
    exC9w2.nextId ∉ Synth_modules exC9w2 0 ∧
    Synth_modules exC9w3 1 = Synth_modules exC9w3 0 ∧
    (Synth_create_module exC9w2 0 (specOneOut "o")).1 ∈ Synth_modules exC9w3 1 ∧
    Synth_modules (Synth_remove_module exC9w3
      (Synth_create_module exC9w2 0 (specOneOut "o")).1) 1 = Synth_modules exC9w2 0 ∧
    Synth_step exC9w3 0 = stepOver exC9w3 (Synth_modules exC9w3 1) 0 := by
  have h := C9_modules_set_is_shared exC9w2 0 1 (specOneOut "o") (by decide)
  exact ⟨by decide, h.1, h.2.1, h.2.2.1, h.2.2.2 0⟩

/-- C10: constructing any plain `Module` that declares at least one
Setting raises, even when every declared default (input and setting
alike) matches its declared type: `gen_widgets` calls `Setting` with
four positional arguments against `__init__(self, module, name,
default)`, a `TypeError` raised before `Setting.__init__`'s body — whose
own `isinstance(self.default, self.type)` check would raise
`AttributeError` anyway, `type` never being assigned. -/
theorem C10_plain_module_setting_always_raises (mid : ℕ)
    (ins : List (String × PyType × Val)) (d : String × PyType × Val)
    (rest : List (String × PyType × Val))
    (hins : ∀ x ∈ ins, isinstanceOf x.2.2 x.2.1 = true)
    (hsets : ∀ x ∈ d :: rest, isinstanceOf x.2.2 x.2.1 = true) :
    Module_construct mid ins (d :: rest) =
      .error "TypeError: Setting takes 3 positional arguments besides self" := by
  unfold Module_construct
  rw [gen_widgets_inputs_ok hins]
  rfl

/-- C10 (witness): a module declaring one well-typed float input and one
well-typed setting still fails to construct. -/
theorem C10_plain_module_setting_witness :
    Module_construct 0 [("freq", PyType.float, Val.num 1)]
      [("waveform", PyType.str, Val.str "sin")] =
      .error "TypeError: Setting takes 3 positional arguments besides self" :=
  C10_plain_module_setting_always_raises 0 [("freq", PyType.float, Val.num 1)]
    ("waveform", PyType.str, Val.str "sin") [] (by decide) (by decide)

/-- C4: the Clock/Rate adapter is drift-free.  The first `repeats` call
after construction returns 0 for every `now`; and for every rate
`R > 0` and monotone call times `t0, t1, ..., tk`, the total number of
steps returned over the whole sequence is `⌊(tk − t0)·R⌋` in exact
arithmetic — the cursor advances by `returned/R`, carrying the
fractional remainder, so the total is independent of the chunking. -/
theorem C4_repeat_counter_drift_free :
    (∀ (R now : ℚ), (repeats (RepeatCounter.init R) now).1 = 0) ∧
    (∀ (R t0 : ℚ) (rest : List ℚ), 0 < R → List.Chain (· ≤ ·) t0 rest →
      (repeatsRun (RepeatCounter.init R) (t0 :: rest)).1 =
        ⌊(rest.getLastD t0 - t0) * R⌋) := by
  constructor
  · intro R now
    rfl
  · intro R t0 rest hR hchain
    unfold repeatsRun
    rw [List.foldl_cons]
    have hfirst : (((0 : ℤ) + (repeats (RepeatCounter.init R) t0).1,
        (repeats (RepeatCounter.init R) t0).2) : ℤ × RepeatCounter) =
        ((0 : ℤ), { rate := R, t_last_repeat := t0 + ((0 : ℤ) : ℚ) / R, swapped := true }) := by
      have h1 : (repeats (RepeatCounter.init R) t0).1 = 0 := rfl
      have h2 : (repeats (RepeatCounter.init R) t0).2 =
          { rate := R, t_last_repeat := t0, swapped := true } := rfl
      rw [h1, h2]
      norm_num [Prod.ext_iff, RepeatCounter.mk.injEq]
    dsimp only
    rw [hfirst]
    exact repeatsRun_invariant hR rest t0 0 hchain (by norm_num)

/-- C4 (witness): the spec's own example — rate 10, queried at times 0,
1/4, 1 — returns 10 steps in total, `⌊(1 − 0)·10⌋`. -/
theorem C4_repeat_counter_witness :
    (repeats (RepeatCounter.init 37) 5).1 = 0 ∧
    (0 : ℚ) < 10 ∧ List.Chain (· ≤ ·) (0 : ℚ) [1/4, 1] ∧
    (repeatsRun (RepeatCounter.init 10) [0, 1/4, 1]).1 = 10 := by
  have hchain : List.Chain (· ≤ ·) (0 : ℚ) [1/4, 1] :=
    List.Chain.cons (by norm_num) (List.Chain.cons (by norm_num) List.Chain.nil)
  refine ⟨C4_repeat_counter_drift_free.1 37 5, by norm_num, hchain, ?_⟩
  have h := C4_repeat_counter_drift_free.2 10 0 [1/4, 1] (by norm_num) hchain
  rw [h]
  norm_num

/-- C2: per-step error isolation.  If the module at some position of the
evaluation order raises when invoked during `step` (its `f` applied to
the gathered bindings fails with `e`), then after the whole step: the
failure is recorded on that module's `error` slot; every Output cell of
that module still holds its pre-step value (the whole output list is
unchanged); and every other module's final state is exactly what it
would have been had the failing module merely produced no outputs — the
rest of the pass proceeds normally and the failure never escapes
`step`, which is a total function.  On a successful invocation the
`error` slot is cleared to `None`. -/
theorem C2_step_error_isolation (w : World) (t : ℚ) (o1 o2 : List ℕ) (mid : ℕ)
    (m : ModuleState) (e : String)
    (hnd : (o1 ++ mid :: o2).Nodup)
    (hm : getModule (stepOver w o1 t) mid = some m)
    (herr : m.f t (overallOf m (gatherInputs (stepOver w o1 t) m)) = .error e) :
    errorAt (stepOver w (o1 ++ mid :: o2) t) mid = some e ∧
    outputsAt (stepOver w (o1 ++ mid :: o2) t) mid = outputsAt w mid ∧
    (∀ j, j ≠ mid → getModule (stepOver w (o1 ++ mid :: o2) t) j =
      getModule (stepOver (replaceF w mid (fun _ _ => .ok [])) (o1 ++ mid :: o2) t) j) ∧
    (∀ (w2 : World) (t2 : ℚ) (mid2 : ℕ) (m2 : ModuleState) (outs : List (String × Val)),
      getModule w2 mid2 = some m2 →
      m2.f t2 (overallOf m2 (gatherInputs w2 m2)) = .ok outs →
      errorAt (invokeStep t2 w2 mid2) mid2 = Option.none) := by
  have hdecomp : stepOver w (o1 ++ mid :: o2) t =
      stepOver (invokeStep t (stepOver w o1 t) mid) o2 t := by
    unfold stepOver
    rw [List.foldl_append, List.foldl_cons]
  have hdisj := List.disjoint_of_nodup_append hnd
  have hmid1 : mid ∉ o1 := fun hc => hdisj hc (List.mem_cons_self _ _)
  have hmid2 : mid ∉ o2 := by
    have h2 : (mid :: o2).Nodup :=
      hnd.sublist (List.sublist_append_right o1 (mid :: o2))
    exact (List.nodup_cons.mp h2).1
  have hframe1 : getModule (stepOver w o1 t) mid = getModule w mid :=
    getModule_stepOver_not_mem hmid1
  have hgw : getModule w mid = some m := hframe1.symm.trans hm
  have hinv : Module_invoke m (gatherInputs (stepOver w o1 t) m) t =
      { m with error := some e } := Module_invoke_of_error herr
  have hmidstate : getModule (invokeStep t (stepOver w o1 t) mid) mid =
      some { m with error := some e, current_values := Option.none } := by
    rw [invokeStep_of_some hm]
    simp only [getModule_updateModule, if_pos rfl, hm, Option.map_some']
    rw [hinv]
    rfl
  have hfinmid : getModule (stepOver w (o1 ++ mid :: o2) t) mid =
      some { m with error := some e, current_values := Option.none } := by
    rw [hdecomp, getModule_stepOver_not_mem hmid2, hmidstate]
  refine ⟨?_, ?_, ?_, ?_⟩
  · unfold errorAt
    rw [hfinmid]
  · unfold outputsAt
    rw [hfinmid, hgw]
  · intro j hj
    have rel0 : AgreeExceptErrF w (replaceF w mid (fun _ _ => .ok [])) mid := by
      constructor
      · intro j2 hj2
        unfold replaceF
        rw [getModule_updateModule_ne _ hj2]
      · refine ⟨m, { m with f := fun _ _ => .ok [] }, hgw, ?_, rfl, rfl, rfl⟩
        unfold replaceF
        simp only [getModule_updateModule, if_pos rfl, hgw, Option.map_some']
        rfl
    have rel1 : AgreeExceptErrF (stepOver w o1 t)
        (stepOver (replaceF w mid (fun _ _ => .ok [])) o1 t) mid :=
      agree_stepOver rel0 hmid1
    have hmA : getModule (stepOver (replaceF w mid (fun _ _ => .ok [])) o1 t) mid =
        some { m with f := fun _ _ => .ok [] } := by
      rw [getModule_stepOver_not_mem hmid1]
      unfold replaceF
      simp only [getModule_updateModule, if_pos rfl, hgw, Option.map_some']
      rfl
    have relAfter : AgreeExceptErrF (invokeStep t (stepOver w o1 t) mid)
        (invokeStep t (stepOver (replaceF w mid (fun _ _ => .ok [])) o1 t) mid) mid := by
      constructor
      · intro j2 hj2
        rw [getModule_invokeStep_ne hj2, getModule_invokeStep_ne hj2]
        exact rel1.1 j2 hj2
      · refine ⟨{ m with error := some e, current_values := Option.none },
          { m with
            f := (fun _ _ => .ok [])
            error := Option.none
            current_values := Option.none }, hmidstate, ?_, rfl, rfl, rfl⟩
        rw [invokeStep_of_some hmA]
        simp only [getModule_updateModule, if_pos rfl, hmA, Option.map_some']
        rw [Module_invoke_of_ok rfl]
        rfl
    have rel2 : AgreeExceptErrF
        (stepOver (invokeStep t (stepOver w o1 t) mid) o2 t)
        (stepOver (invokeStep t (stepOver (replaceF w mid (fun _ _ => .ok [])) o1 t) mid)
          o2 t) mid := agree_stepOver relAfter hmid2
    have hdecompA : stepOver (replaceF w mid (fun _ _ => .ok [])) (o1 ++ mid :: o2) t =
        stepOver (invokeStep t (stepOver (replaceF w mid (fun _ _ => .ok [])) o1 t) mid)
          o2 t := by
      unfold stepOver
      rw [List.foldl_append, List.foldl_cons]
    rw [hdecomp, hdecompA]
    exact rel2.1 j hj
  · intro w2 t2 mid2 m2 outs hm2 hok
    have hstate : getModule (invokeStep t2 w2 mid2) mid2 =
        some { Module_invoke m2 (gatherInputs w2 m2) t2 with
               current_values := Option.none } := by
      rw [invokeStep_of_some hm2]
      simp only [getModule_updateModule, if_pos rfl, hm2, Option.map_some']
      rfl
    unfold errorAt
    rw [hstate, Module_invoke_of_ok hok]

/-- C2 (witness): error isolation on the concrete two-module step — module
0 raises `boom`, module 1 still computes normally. -/
theorem C2_step_error_isolation_witness :
    errorAt (stepOver exC2W ([] ++ 0 :: [1]) 0) 0 = some "boom" ∧
    outputsAt (stepOver exC2W ([] ++ 0 :: [1]) 0) 0 = outputsAt exC2W 0 ∧
    getModule (stepOver exC2W ([] ++ 0 :: [1]) 0) 1 =
      getModule (stepOver (replaceF exC2W 0 (fun _ _ => .ok [])) ([] ++ 0 :: [1]) 0) 1 ∧
    errorAt (invokeStep 0 exC2W 1) 1 = Option.none := by
  have h := C2_step_error_isolation exC2W 0 [] [1] 0 exC2F "boom" (by decide) rfl rfl
  exact ⟨h.1, h.2.1, h.2.2.1 1 (by decide),
    h.2.2.2 exC2W 0 1 exC2G [("go", Val.num 5)] rfl rfl⟩

theorem selfIter_none_succ (n : ℕ) : selfIter Val.none (n + 1) = Val.num ((n : ℚ) + 1) := by
  show selfIter (Val.num (valNum Val.none + 1)) n = _
  rw [show valNum Val.none + 1 = (1 : ℚ) by norm_num [valNum]]
  rw [selfIter_num n 1]
  exact congrArg Val.num (by ring)

/-- C3: fresh/stale read rule and self-feedback.  Within one `step` over a
fixed order: (a) the pass processes position `i` by invoking it on the
state left by positions `0..i-1`; (b) the value gathered for a connected
input is the source Output's cell in that intermediate state; (c) a
source not evaluated before position `i` — a later module, the module
itself, or one outside the order — still shows its previous-step value;
(d) a source evaluated at an earlier position `j < i` shows exactly the
value its invocation left this step; (e) a one-module self-feedback loop
steps without error for any number of steps with arbitrary times, its
output after `n` steps is `n`, and the binding its next invocation would
gather is this step's value — one-step latency. -/
theorem C3_fresh_stale_self_feedback :
    (∀ (w : World) (order : List ℕ) (t : ℚ) (i : ℕ) (hi : i < order.length),
      stepOver w (order.take (i + 1)) t =
        invokeStep t (stepOver w (order.take i) t) (order.get ⟨i, hi⟩)) ∧
    (∀ (w : World) (m : ModuleState) (inm : String) (p : InputPort) (r : ℕ × String),
      findInput m inm = some p → p.connection = some r →
      lookupStr (gatherInputs w m) inm = some (outputValueAt w r.1 r.2)) ∧
    (∀ (w : World) (order : List ℕ) (t : ℚ) (i src : ℕ) (onm : String),
      src ∉ order.take i →
      outputValueAt (stepOver w (order.take i) t) src onm = outputValueAt w src onm) ∧
    (∀ (w : World) (order : List ℕ) (t : ℚ) (i j : ℕ) (hj : j < order.length),
      order.Nodup → j < i → ∀ onm,
      outputValueAt (stepOver w (order.take i) t) (order.get ⟨j, hj⟩) onm =
        outputValueAt (invokeStep t (stepOver w (order.take j) t) (order.get ⟨j, hj⟩))
          (order.get ⟨j, hj⟩) onm) ∧
    (∀ ts : List ℚ, ts ≠ [] →
      errorAt (ts.foldl Synth_step (selfLoopWorld Val.none Option.none (some []))) 0 =
        Option.none ∧
      outputValueAt (ts.foldl Synth_step (selfLoopWorld Val.none Option.none (some []))) 0
        "out" = Val.num (ts.length : ℚ) ∧
      (∀ m, getModule (ts.foldl Synth_step (selfLoopWorld Val.none Option.none (some []))) 0 =
        some m →
        lookupStr (gatherInputs
          (ts.foldl Synth_step (selfLoopWorld Val.none Option.none (some []))) m) "in" =
          some (Val.num (ts.length : ℚ)))) := by
  refine ⟨?_, ?_, ?_, ?_, ?_⟩
  · intro w order t i hi
    exact stepOver_take_succ w order t i hi
  · intro w m inm p r hf hc
    exact gather_reads_cell hf hc
  · intro w order t i src onm hsrc
    exact outputValue_stale hsrc onm
  · intro w order t i j hj hnd hji onm
    rw [outputValue_fresh hnd hji hj onm]
    congr 1
    exact stepOver_take_succ w order t j hj
  · intro ts hne
    obtain ⟨n, hn⟩ : ∃ n, ts.length = n + 1 := by
      cases hts : ts with
      | nil => exact absurd hts hne
      | cons a l => exact ⟨l.length, by simp⟩
    rw [selfLoop_foldSteps ts _ _ _ hne, hn, selfIter_none_succ n]
    have hval : ((n : ℚ) + 1) = ((n + 1 : ℕ) : ℚ) := by push_cast; ring
    refine ⟨rfl, by rw [hval]; rfl, ?_⟩
    intro m hm
    have hmod : m = selfLoopModule (Val.num ((n : ℚ) + 1)) Option.none Option.none :=
      (Option.some.inj hm).symm
    subst hmod
    rw [show lookupStr (gatherInputs
      (selfLoopWorld (Val.num ((n : ℚ) + 1)) Option.none Option.none)
      (selfLoopModule (Val.num ((n : ℚ) + 1)) Option.none Option.none)) "in" =
      some (Val.num ((n : ℚ) + 1)) from rfl]
    rw [hval]

/-- C3 (witness): the fresh/stale rule and the self-feedback loop on
concrete graphs — the two-module chain 0 → 1 stepped in order `[0, 1]`,
and the one-module loop stepped once. -/
theorem C3_fresh_stale_witness :
    stepOver exC3W ([0, 1].take 1) 0 =
      invokeStep 0 (stepOver exC3W ([0, 1].take 0) 0) ([0, 1].get ⟨0, by norm_num⟩) ∧
    lookupStr (gatherInputs exC3W exC3B) "bi" = some (outputValueAt exC3W 0 "ao") ∧
    outputValueAt (stepOver exC3W ([0, 1].take 1) 0) 1 "x" = outputValueAt exC3W 1 "x" ∧
    outputValueAt (stepOver exC3W ([0, 1].take 2) 0) ([0, 1].get ⟨0, by norm_num⟩) "ao" =
      outputValueAt (invokeStep 0 (stepOver exC3W ([0, 1].take 0) 0)
        ([0, 1].get ⟨0, by norm_num⟩)) ([0, 1].get ⟨0, by norm_num⟩) "ao" ∧
    errorAt ([(0 : ℚ)].foldl Synth_step (selfLoopWorld Val.none Option.none (some []))) 0 =
      Option.none ∧
    outputValueAt ([(0 : ℚ)].foldl Synth_step (selfLoopWorld Val.none Option.none (some []))) 0
      "out" = Val.num (([(0 : ℚ)].length : ℚ)) ∧
    lookupStr (gatherInputs
      ([(0 : ℚ)].foldl Synth_step (selfLoopWorld Val.none Option.none (some [])))
      (selfLoopModule (Val.num (valNum Val.none + 1)) Option.none Option.none)) "in" =
      some (Val.num (([(0 : ℚ)].length : ℚ))) := by
  have h := C3_fresh_stale_self_feedback
  have hloop := h.2.2.2.2 [(0 : ℚ)] (by decide)
  exact ⟨h.1 exC3W [0, 1] 0 0 (by norm_num),
    h.2.1 exC3W exC3B "bi"
      { name := "bi", ty := PyType.float, default := Val.num 0, connection := some (0, "ao") }
      (0, "ao") rfl rfl,
    h.2.2.1 exC3W [0, 1] 0 1 1 "x" (by decide),
    h.2.2.2.1 exC3W [0, 1] 0 2 0 (by norm_num) (by decide) (by norm_num) "ao",
    hloop.1, hloop.2.1, hloop.2.2 _ rfl⟩
